import Mathlib

/-!
Verification of the transaction-orchestration core of the personalised-ai
banking backend.

The JavaScript sources are embedded shallowly:

* strings that are processed character by character (account numbers,
  user messages) become `List Char`;
* Prisma `Decimal` / JS number amounts become `Rat` (exact decimal
  arithmetic, which is what the `Decimal` column type provides);
* the in-memory pending-transaction `Map` becomes an association list in
  insertion order, and `setTimeout`-based eviction becomes an explicit
  `expireDue` function applied when time advances (a timer whose deadline
  has passed is modelled as having fired);
* database tables become lists of records inside a `DB` structure, and a
  `prisma.$transaction` becomes an `Except`-valued function that returns
  the updated `DB` only on success (error = rollback);
* external collaborators (Paystack verification, bcrypt, the eBills API,
  the beneficiary search viewed from the orchestrator) are parameters.

Every definition mirrors a specific function of the repository, named in
its doc comment.
-/

namespace PersonalisedBank

/-! ### Small character/list helpers shared by the embeddings -/

/-- JS `s.slice(-4)`: the last `n` characters of a string. -/
def lastN (n : Nat) (l : List Char) : List Char :=
  l.drop (l.length - n)

/-- JS whitespace class `\s` restricted to the characters the repository
ever feeds it (ASCII). -/
def isSpaceChar (c : Char) : Bool :=
  c == ' ' || c == '\t' || c == '\n' || c == '\r'

/-- JS `String.prototype.trim`. -/
def trimChars (l : List Char) : List Char :=
  ((l.dropWhile isSpaceChar).reverse.dropWhile isSpaceChar).reverse

/-- JS `String.prototype.toLowerCase` on the ASCII range. -/
def lowerChars (l : List Char) : List Char :=
  l.map Char.toLower

/-- JS regex word-character class `\w` = `[A-Za-z0-9_]`. -/
def isWordChar (c : Char) : Bool :=
  c.isAlpha || c.isDigit || c == '_'

/-! ### AccountResolver: NUBAN checksum (src/services/bankVerification.js) -/

/-- JS `parseInt` applied to a single character of the serial string:
a decimal digit parses to its value, anything else is `NaN` (`none`). -/
def charToDigit (c : Char) : Option Nat :=
  if c.isDigit then some (c.toNat - 48) else none

/-- Parses every character of a serial string, failing on the first
non-digit, exactly as the `isNaN` check inside the validation loop does. -/
def digitsOf : List Char → Option (List Nat)
  | [] => some []
  | c :: cs =>
    match charToDigit c, digitsOf cs with
    | some d, some ds => some (d :: ds)
    | _, _ => none

/-- The NUBAN weight table `[3, 7, 3, 3, 7, 3, 3, 7, 3, 3, 7, 3]`. -/
def nubanWeights : List Nat := [3, 7, 3, 3, 7, 3, 3, 7, 3, 3, 7, 3]

/-- `weights[i % weights.length]` from `validateNUBAN`. -/
def nubanWeight (i : Nat) : Nat :=
  nubanWeights.getD (i % 12) 0

/-- The accumulating loop of `validateNUBAN`: `sum += digit * weight`,
starting at position `i` of the serial string. -/
def nubanSumFrom : Nat → List Nat → Nat
  | _, [] => 0
  | i, d :: ds => d * nubanWeight i + nubanSumFrom (i + 1) ds

/-- `validateNUBAN(accountNumber, bankCode)` from
src/services/bankVerification.js: length-10 check, weighted sum over
`bankCode + accountNumber.substring(0, 9)`, check digit
`(10 - sum % 10) % 10` compared with the 10th digit. -/
def validateNUBAN (accountNumber : List Char) (bankCode : List Char) : Bool :=
  if accountNumber.length ≠ 10 then false
  else
    match digitsOf (bankCode ++ accountNumber.take 9) with
    | none => false
    | some ds =>
      match charToDigit (accountNumber.getD 9 ' ') with
      | none => false
      | some lastDigit => (10 - nubanSumFrom 0 ds % 10) % 10 == lastDigit

/-- One entry of data/nigerian-banks.json (name and CBN institution
code). The catalog itself is data, so functions take it as an argument. -/
structure Bank where
  name : String
  code : List Char
  deriving Repr, DecidableEq

/-- `detectPossibleBanks(accountNumber)` from
src/services/bankVerification.js: every catalog entry whose code passes
`validateNUBAN`, in catalog order. -/
def detectPossibleBanks (accountNumber : List Char) (catalog : List Bank) : List Bank :=
  if accountNumber.length ≠ 10 then []
  else catalog.filter (fun bank => validateNUBAN accountNumber bank.code)

/-! Spec-side rendering of the checksum sentence of §4.2, written from the
spec's words (weights from the repeating cycle indexed by position mod the
cycle length, sum of digit×weight, `(10 − (sum mod 10)) mod 10`). -/

/-- Modelled from the spec: the weighted sum "assign each digit a weight
from the repeating cycle [3,7,3,3,7,3,3,7,3,3,7,3], indexed by position
modulo the cycle length; sum digit×weight". -/
def specWeightedSum (ds : List Nat) : Nat :=
  (ds.enum.map (fun p => p.2 * nubanWeights.getD (p.1 % nubanWeights.length) 0)).sum

/-- Modelled from the spec: "valid iff `checkDigit` equals the account
number's 10th digit", over the digit values of the account number and the
institution code. -/
def specChecksumValid (acctDigits codeDigits : List Nat) : Prop :=
  (10 - specWeightedSum (codeDigits ++ acctDigits.take 9) % 10) % 10 = acctDigits.getD 9 0

/-! ### Data model (logical shapes of the Prisma tables) -/

/-- A row of the Customer table. -/
structure Customer where
  id : Nat
  customerName : String
  phoneNumber : String
  accountNumber : List Char
  pin : String
  bankName : Option String
  deletedAt : Option Nat
  deriving Repr, DecidableEq

/-- A row of the Account table. -/
structure Account where
  id : Nat
  customerId : Nat
  accountNumber : List Char
  balance : Rat
  currency : String
  bankName : Option String
  deletedAt : Option Nat
  deriving Repr, DecidableEq

/-- A row of the Transaction table (a ledger row). -/
structure TransactionRow where
  customerId : Nat
  accountId : Nat
  receiverName : String
  bankName : Option String
  bankAccount : List Char
  accountNumber : List Char
  amount : Rat
  balanceBefore : Rat
  balanceAfter : Rat
  status : String
  transactionType : String
  reference : String
  deriving Repr, DecidableEq

/-- A row of the Beneficiary table. -/
structure BeneficiaryRow where
  id : Nat
  customerId : Nat
  recipientName : String
  accountNumber : List Char
  bankName : Option String
  bankAccount : Option (List Char)
  nickname : Option String
  transferCount : Nat
  deletedAt : Option Nat
  deriving Repr, DecidableEq

/-- The persistent state: the tables touched by the ledger executor, plus
counters standing for the autoincrement ids Prisma would assign. -/
structure DB where
  customers : List Customer
  accounts : List Account
  transactions : List TransactionRow
  beneficiaries : List BeneficiaryRow
  nextAccountId : Nat
  nextCustomerId : Nat
  deriving Repr, DecidableEq

/-- The `recipientData` argument of `initiateTransfer` as assembled by
`executeTransfer` in the verify-transaction route. -/
structure RecipientData where
  name : String
  accountNumber : List Char
  bankName : Option String
  bankAccount : Option (List Char)
  beneficiaryId : Option Nat
  deriving Repr, DecidableEq

/-! ### LedgerExecutor: initiateTransfer (src/services/database.js) -/

/-- The debit ledger row built at the top of `initiateTransfer`'s
`prisma.$transaction` (`balanceAfter = balanceBefore − amount`). -/
def mkDebitRow (customerId accountId : Nat) (rd : RecipientData)
    (amount balanceBefore : Rat) (senderRef : String) : TransactionRow :=
  { customerId := customerId
    accountId := accountId
    receiverName := rd.name
    bankName := rd.bankName
    bankAccount := rd.bankAccount.getD rd.accountNumber
    accountNumber := rd.accountNumber
    amount := amount
    balanceBefore := balanceBefore
    balanceAfter := balanceBefore - amount
    status := "success"
    transactionType := "debit"
    reference := senderRef }

/-- Persisting the debit row and updating the sender's stored balance
(`tx.transaction.create` followed by `tx.account.update`). -/
def applyDebit (db : DB) (accountId : Nat) (row : TransactionRow)
    (newBalance : Rat) : DB :=
  { db with
    transactions := db.transactions ++ [row]
    accounts := db.accounts.map (fun a =>
      if a.id == accountId then { a with balance := newBalance } else a) }

/-- The credit ledger row built from the outcome of the credit-target
resolution (`recipientBalanceBefore`, `recipientBalanceAfter`,
`recipientAccountId`, `recipientCustomerId`). -/
def mkCreditRow (customer : Customer) (account : Account) (amount : Rat)
    (recipientRef : String) (step : Rat × Rat × Nat × Nat × DB) : TransactionRow :=
  { customerId := step.2.2.2.1
    accountId := step.2.2.1
    receiverName := customer.customerName
    bankName := account.bankName
    bankAccount := account.accountNumber
    accountNumber := account.accountNumber
    amount := amount
    balanceBefore := step.1
    balanceAfter := step.2.1
    status := "success"
    transactionType := "credit"
    reference := recipientRef }

/-- The credit-target resolution block inside `initiateTransfer`'s
`prisma.$transaction`: yields `recipientBalanceBefore`,
`recipientBalanceAfter`, `recipientAccountId`, `recipientCustomerId` and
the database after any account/customer creation and balance credit.
`recipientBalanceBefore`/`After` are assigned only when the recipient's
account number matched an existing account row (`ra?`); the other two
branches leave the zeros they were initialised with, exactly as in the
source. -/
def resolveCreditTarget (rd : RecipientData) (amount : Rat)
    (ra? : Option Account) (rc? : Option Customer) (db1 : DB) :
    Rat × Rat × Nat × Nat × DB :=
  match ra? with
  | some ra =>
    -- recipient has an account in the system: credit it
    (ra.balance, ra.balance + amount, ra.id, ra.customerId,
      { db1 with accounts := db1.accounts.map (fun a =>
          if a.id == ra.id then { a with balance := ra.balance + amount } else a) })
  | none =>
    match rc? with
    | some rc =>
      -- recipient is a customer with no account row: placeholder account
      match db1.accounts.find? (fun a =>
          a.customerId == rc.id && a.deletedAt.isNone) with
      | some pa => (0, 0, pa.id, rc.id, db1)
      | none =>
        let newAccount : Account :=
          { id := db1.nextAccountId, customerId := rc.id
            accountNumber := rd.accountNumber, balance := 0
            currency := "NGN", bankName := rd.bankName, deletedAt := none }
        (0, 0, newAccount.id, rc.id,
          { db1 with accounts := db1.accounts ++ [newAccount]
                     nextAccountId := db1.nextAccountId + 1 })
    | none =>
      -- external recipient: find-or-create the system customer and account
      let sysPair : Customer × DB :=
        match db1.customers.find? (fun c =>
            c.phoneNumber == "SYSTEM_EXTERNAL" && c.deletedAt.isNone) with
        | some sc => (sc, db1)
        | none =>
          let sc : Customer :=
            { id := db1.nextCustomerId, customerName := "External Recipient"
              phoneNumber := "SYSTEM_EXTERNAL", accountNumber := "0000000000".toList
              pin := "SYSTEM", bankName := none, deletedAt := none }
          (sc, { db1 with customers := db1.customers ++ [sc]
                          nextCustomerId := db1.nextCustomerId + 1 })
      let sysCust := sysPair.1
      let dbA := sysPair.2
      match dbA.accounts.find? (fun a =>
          a.accountNumber == rd.accountNumber && a.customerId == sysCust.id
            && a.deletedAt.isNone) with
      | some ea => (0, 0, ea.id, sysCust.id, dbA)
      | none =>
        let ea : Account :=
          { id := dbA.nextAccountId, customerId := sysCust.id
            accountNumber := rd.accountNumber, balance := 0
            currency := "NGN", bankName := rd.bankName, deletedAt := none }
        (0, 0, ea.id, sysCust.id,
          { dbA with accounts := dbA.accounts ++ [ea]
                     nextAccountId := dbA.nextAccountId + 1 })

/-- `initiateTransfer(customerId, accountId, recipientData, amount)` from
the database service.  The two generated references are taken as
arguments (in the source they come from `Date.now()` and
`Math.random()`).  The `prisma.$transaction` block is modelled by
returning the updated `DB` only on success; every error path returns the
error and implicitly rolls back.  Balances are handled exactly as in the
source: `recipientBalanceBefore`/`After` start at 0 and are assigned only
in the branch where the recipient's account number matches an existing
account; in the other two branches the credit row keeps the zeros and no
account balance is credited. -/
def initiateTransfer (customerId accountId : Nat) (rd : RecipientData)
    (amount : Rat) (senderRef recipientRef : String) (db : DB) :
    Except String (TransactionRow × DB) :=
  match db.customers.find? (fun c => c.id == customerId && c.deletedAt.isNone) with
  | none => .error "Customer not found"
  | some customer =>
  match db.accounts.find? (fun a =>
      a.id == accountId && a.customerId == customerId && a.deletedAt.isNone) with
  | none => .error "Account not found"
  | some account =>
  if account.balance < amount then .error "Insufficient balance"
  else if rd.name == "" || rd.accountNumber == ([] : List Char) then
    .error "Invalid recipient data"
  else
    -- both recipient lookups happen before the transaction block
    let recipientAccount := db.accounts.find? (fun a =>
      a.accountNumber == rd.accountNumber && a.deletedAt.isNone)
    let recipientCustomer := db.customers.find? (fun c =>
      c.accountNumber == rd.accountNumber && c.deletedAt.isNone)
    let senderTxn := mkDebitRow customerId accountId rd amount account.balance senderRef
    -- debit row persisted, then the sender balance updated
    let db1 := applyDebit db accountId senderTxn (account.balance - amount)
    -- resolve the credit target
    let step := resolveCreditTarget rd amount recipientAccount recipientCustomer db1
    -- credit row is always persisted
    let creditTxn := mkCreditRow customer account amount recipientRef step
    let db2 := step.2.2.2.2
    let db3 : DB := { db2 with transactions := db2.transactions ++ [creditTxn] }
    match rd.beneficiaryId with
    | none => .ok (senderTxn, db3)
    | some bid =>
      -- `beneficiary.update` throws (rolling everything back) when the id
      -- does not exist
      if db3.beneficiaries.any (fun b => b.id == bid) then
        .ok (senderTxn,
          { db3 with beneficiaries := db3.beneficiaries.map (fun b =>
              if b.id == bid then { b with transferCount := b.transferCount + 1 } else b) })
      else .error "Record to update not found."

/-! Concrete fixtures for the ledger-executor claims. -/

def aliceCustomer : Customer :=
  ⟨1, "Alice", "p1", "1111111111".toList, "HASH", some "MyBank", none⟩

def aliceAccount : Account :=
  ⟨1, 1, "1111111111".toList, 500, "NGN", some "MyBank", none⟩

def bobCustomer : Customer :=
  ⟨2, "Bob", "p2", "2222222222".toList, "HASH2", none, none⟩

def bobAccount : Account :=
  ⟨2, 2, "2222222222".toList, 50, "NGN", none, none⟩

/-- A database where the recipient account number exists. -/
def dbWithBob : DB := ⟨[aliceCustomer, bobCustomer], [aliceAccount, bobAccount], [], [], 10, 10⟩

/-- Recipient data pointing at Bob's account. -/
def rdBob : RecipientData := ⟨"Bob", "2222222222".toList, none, none, none⟩

/-- A database without the recipient: the transfer goes to an external
recipient through the system-external sink. -/
def dbNoBob : DB := ⟨[aliceCustomer], [aliceAccount], [], [], 10, 10⟩

/-- Recipient data for an account number unknown to the system. -/
def rdExternal : RecipientData := ⟨"Ext Person", "9999999999".toList, some "GTB", none, none⟩

def c1WitTxn : TransactionRow := mkDebitRow 1 1 rdBob 100 500 "R1"

def c1WitDb : DB :=
  ((initiateTransfer 1 1 rdBob 100 "R1" "R2" dbWithBob).toOption.getD
    (c1WitTxn, dbWithBob)).2

/-! ### Candidates and account summaries used by the orchestrator -/

/-- One element of the list returned by `getAccountBalance` (id, account
number, balance, currency, bank name). -/
structure AccountInfo where
  id : Nat
  accountNumber : List Char
  balance : Rat
  currency : String
  bankName : Option String
  deriving Repr, DecidableEq

/-- One recipient candidate as produced by `searchBeneficiaries` (or by
Paystack verification in the orchestrator): name, account number, bank
name, last-4 digits, origin tag, optional beneficiary id. -/
structure Cand where
  id : Option Nat
  customerId : Option Nat
  name : String
  accountNumber : List Char
  bankName : Option String
  bankAccount : Option (List Char)
  nickname : Option String
  last4Digits : List Char
  transferCount : Nat
  source : String
  deriving Repr, DecidableEq

/-! ### PendingTransactionStore (src/services/pendingTransactions.js) -/

/-- An entry of the in-memory pending-transaction store.  The JS object
spreads `transactionData.data` over `{id, type, customerId, createdAt}`,
so this structure is the union of the payload fields the transfer,
internal-transfer and airtime flows store; a field the flow did not set is
`none` (JS `undefined`); a field JS `delete`s becomes `none` as well. -/
structure PendingTxn where
  id : String
  type : String
  customerId : Nat
  createdAt : Nat
  status : String
  amount : Rat
  accountId : Option Nat
  accounts : Option (List AccountInfo)
  beneficiary : Option Cand
  beneficiaries : Option (List Cand)
  recipientName : Option String
  accountNumber : Option (List Char)
  sourceAccount : Option AccountInfo
  targetAccount : Option AccountInfo
  phone : Option (List Char)
  serviceId : Option String
  networkName : Option String
  deriving Repr, DecidableEq

/-- The `pendingTransactions` Map, in insertion order. -/
abbrev Store : Type := List (String × PendingTxn)

/-- The 15-minute TTL (`15 * 60 * 1000` milliseconds). -/
def TTLms : Nat := 15 * 60 * 1000

/-- `createPendingTransaction(transactionData)`: a fresh id (passed in,
generated from `Date.now()`/`Math.random()` in the source), the creation
time, the type and customer id, and the payload. -/
def createPendingTransaction (newId : String) (now : Nat) (ty : String)
    (cid : Nat) (data : PendingTxn) (st : Store) : Store :=
  st ++ [(newId, { data with id := newId, type := ty, customerId := cid, createdAt := now })]

/-- `getPendingTransaction(transactionId)`: a plain Map lookup — no lazy
expiry check happens on read. -/
def getPendingTransaction (tid : String) (st : Store) : Option PendingTxn :=
  (st.find? (fun p => p.1 == tid)).map (·.2)

/-- `deletePendingTransaction(transactionId)`. -/
def deletePendingTransaction (tid : String) (st : Store) : Store :=
  st.filter (fun p => p.1 != tid)

/-- `pendingTransactions.set(id, obj)` on an existing key (the routes
mutate the object they obtained from the Map; the entry is updated in
place). -/
def storeSet (tid : String) (pt : PendingTxn) (st : Store) : Store :=
  if st.any (fun p => p.1 == tid) then
    st.map (fun p => if p.1 == tid then (tid, pt) else p)
  else st ++ [(tid, pt)]

/-- The `setTimeout`-based eviction, observed at time `now`: each entry's
timer has deadline `createdAt + TTLms`, and every timer whose deadline has
been reached by `now` has fired (checked `has` and deleted the entry). -/
def expireDue (now : Nat) (st : Store) : Store :=
  st.filter (fun p => now < p.2.createdAt + TTLms)

/-! ### Verify-transaction route (the PIN-confirmation endpoint) -/

/-- The JSON replies of the verify-transaction route: HTTP status,
`success`, and the `response`/`error`/`message` fields that are present. -/
structure ApiResponse where
  status : Nat
  success : Bool
  response : Option String
  error : Option String
  message : Option String
  deriving Repr, DecidableEq

/-- External collaborators of the verify-transaction route:
`bcrypt.compare` and the eBills airtime purchase (its order status, or a
thrown error). -/
structure VerifyEnv where
  bcryptCompare : String → String → Bool
  airtime : Except String String

/-- `getCustomerPINHash(customerId)` from the database service. -/
def getCustomerPINHash (cid : Nat) (db : DB) : Option String :=
  (db.customers.find? (fun c => c.id == cid && c.deletedAt.isNone)).map (·.pin)

/-- `executeTransfer(pendingTransaction)` from the verify-transaction
route: builds `recipientData` from the stored beneficiary and calls
`initiateTransfer`.  A pending transaction without a beneficiary or
account id makes the JS throw on property access / `BigInt(undefined)`;
both surface as errors caught by the route's catch block. -/
def executeTransfer (pt : PendingTxn) (r1 r2 : String) (db : DB) :
    Except String (String × DB) :=
  match pt.beneficiary with
  | none => .error "Cannot read properties of undefined"
  | some b =>
    match pt.accountId with
    | none => .error "Account not found"
    | some aid =>
      (initiateTransfer pt.customerId aid
        { name := b.name
          accountNumber := b.accountNumber
          bankName := b.bankName
          bankAccount := some (b.bankAccount.getD b.accountNumber)
          beneficiaryId := b.id }
        pt.amount r1 r2 db).map (fun p =>
          ("Transfer completed successfully! Reference: " ++ p.1.reference, p.2))

/-- `executeInternalTransfer(pendingTransaction)` from the
verify-transaction route: symmetric debit/credit rows with `-DEBIT` and
`-CREDIT` reference suffixes, then the two balance updates. -/
def executeInternalTransfer (pt : PendingTxn) (ref : String) (db : DB) :
    Except String (String × DB) :=
  match pt.sourceAccount, pt.targetAccount with
  | some src, some tgt =>
    match db.accounts.find? (fun a => a.id == src.id && a.deletedAt.isNone) with
    | none => .error "Source account not found"
    | some source =>
      if source.balance < pt.amount then .error "Insufficient balance"
      else
        match db.accounts.find? (fun a => a.id == tgt.id && a.deletedAt.isNone) with
        | none => .error "Target account not found"
        | some target =>
          let debitRow : TransactionRow :=
            { customerId := pt.customerId
              accountId := src.id
              receiverName := "Internal Transfer to " ++ String.mk (lastN 4 tgt.accountNumber)
              bankName := tgt.bankName
              bankAccount := tgt.accountNumber
              accountNumber := tgt.accountNumber
              amount := pt.amount
              balanceBefore := source.balance
              balanceAfter := source.balance - pt.amount
              status := "success"
              transactionType := "debit"
              reference := ref ++ "-DEBIT" }
          let creditRow : TransactionRow :=
            { customerId := pt.customerId
              accountId := tgt.id
              receiverName := "Internal Transfer from " ++ String.mk (lastN 4 src.accountNumber)
              bankName := src.bankName
              bankAccount := src.accountNumber
              accountNumber := src.accountNumber
              amount := pt.amount
              balanceBefore := target.balance
              balanceAfter := target.balance + pt.amount
              status := "success"
              transactionType := "credit"
              reference := ref ++ "-CREDIT" }
          .ok (ref,
            { db with
              transactions := db.transactions ++ [debitRow, creditRow]
              accounts := (db.accounts.map (fun a =>
                  if a.id == src.id then { a with balance := source.balance - pt.amount } else a)).map
                (fun a =>
                  if a.id == tgt.id then { a with balance := target.balance + pt.amount } else a) })
  | _, _ => .error "Cannot read properties of undefined"

/-- `executeAirtimePurchase(pendingTransaction)` from the
verify-transaction route, with the eBills call a parameter: on a
`completed-api`/`processing-api` order the account is debited and a debit
row recorded; otherwise the purchase fails with no write. -/
def executeAirtimePurchase (pt : PendingTxn) (env : VerifyEnv) (ref : String)
    (db : DB) : Except String (String × DB) :=
  match pt.accountId with
  | none => .error "Account not found"
  | some aid =>
    match db.accounts.find? (fun a => a.id == aid && a.deletedAt.isNone) with
    | none => .error "Account not found"
    | some account =>
      if account.balance < pt.amount then .error "Insufficient balance"
      else
        match env.airtime with
        | .error e => .error ("Airtime purchase failed: " ++ e)
        | .ok orderStatus =>
          if orderStatus == "completed-api" || orderStatus == "processing-api" then
            let row : TransactionRow :=
              { customerId := pt.customerId
                accountId := aid
                receiverName := "Airtime Purchase - " ++ (pt.networkName.getD "")
                bankName := pt.networkName
                bankAccount := pt.phone.getD []
                accountNumber := pt.phone.getD []
                amount := pt.amount
                balanceBefore := account.balance
                balanceAfter := account.balance - pt.amount
                status := if orderStatus == "completed-api" then "success" else "pending"
                transactionType := "debit"
                reference := ref }
            .ok ("Airtime purchase submitted",
              { db with
                transactions := db.transactions ++ [row]
                accounts := db.accounts.map (fun a =>
                  if a.id == aid then { a with balance := account.balance - pt.amount } else a) })
          else .error ("Airtime purchase failed. Status: " ++ orderStatus)

/-- The `switch (pendingTransaction.type)` of the verify-transaction
route; `none` is the default arm (unsupported type, returned before any
deletion). -/
def executePending (pt : PendingTxn) (env : VerifyEnv) (r1 r2 : String)
    (db : DB) : Option (Except String (String × DB)) :=
  if pt.type == "transfer" then some (executeTransfer pt r1 r2 db)
  else if pt.type == "internal_transfer" then some (executeInternalTransfer pt r1 db)
  else if pt.type == "airtime" then some (executeAirtimePurchase pt env r1 db)
  else if pt.type == "data" || pt.type == "cable" || pt.type == "internet"
      || pt.type == "electricity" then
    some (.ok (pt.type ++ " purchase completed successfully!", db))
  else none

/-- The `POST /api/verify-transaction` handler (src/routes/...): look up
the pending transaction, check ownership, compare the PIN against the
stored hash, execute by type, and delete the pending transaction after
execution (on success or on execution error — but not on a failed PIN or
an unsupported type). -/
def verifyTransaction (customerId : Nat) (transactionId pin : String)
    (env : VerifyEnv) (r1 r2 : String) (st : Store) (db : DB) :
    ApiResponse × Store × DB :=
  match getPendingTransaction transactionId st with
  | none =>
    ({ status := 404, success := false, response := none
       error := some "Transaction not found"
       message := some "Transaction not found or has expired. Please initiate a new transaction." },
      st, db)
  | some pt =>
    if pt.customerId ≠ customerId then
      ({ status := 403, success := false, response := none
         error := some "Unauthorized"
         message := some "This transaction does not belong to you." },
        st, db)
    else
      match getCustomerPINHash customerId db with
      | none =>
        ({ status := 404, success := false, response := none
           error := some "PIN not found"
           message := some "No PIN has been set for this account. Please set a PIN first." },
          st, db)
      | some hashedPIN =>
        if ¬ env.bcryptCompare pin.trim hashedPIN then
          ({ status := 401, success := false
             response := some "Invalid PIN. Please try again."
             error := none, message := none },
            st, db)
        else
          match executePending pt env r1 r2 db with
          | none =>
            ({ status := 400, success := false, response := none
               error := some "Invalid transaction type"
               message := some ("Transaction type '" ++ pt.type ++ "' is not supported.") },
              st, db)
          | some (.ok (resp, db')) =>
            ({ status := 200, success := true, response := some resp
               error := none, message := none },
              deletePendingTransaction transactionId st, db')
          | some (.error emsg) =>
            if emsg == "Insufficient balance" then
              ({ status := 400, success := false
                 response := some "Insufficient balance. Please top up your account."
                 error := none, message := none },
                deletePendingTransaction transactionId st, db)
            else
              ({ status := 500, success := false, response := none
                 error := some "Transaction failed", message := some emsg },
                deletePendingTransaction transactionId st, db)

/-- A pending-transaction payload with every optional field absent; the
fixtures below override the fields their flow sets. -/
def basePending : PendingTxn :=
  { id := "", type := "", customerId := 0, createdAt := 0, status := ""
    amount := 0, accountId := none, accounts := none, beneficiary := none
    beneficiaries := none, recipientName := none, accountNumber := none
    sourceAccount := none, targetAccount := none, phone := none
    serviceId := none, networkName := none }

/-- Bob as a recipient candidate. -/
def bobCand : Cand :=
  { id := none, customerId := some 2, name := "Bob"
    accountNumber := "2222222222".toList, bankName := none, bankAccount := none
    nickname := none, last4Digits := "2222".toList, transferCount := 0
    source := "customer" }

/-- A transfer awaiting PIN confirmation, owned by customer 1. -/
def c7Pt : PendingTxn :=
  { basePending with
    id := "T1", type := "transfer", customerId := 1, createdAt := 0
    status := "pending_pin", amount := 100, accountId := some 1
    beneficiary := some bobCand }

/-- An environment whose PIN comparison succeeds. -/
def c7Env : VerifyEnv := ⟨fun _ _ => true, .error "unused"⟩

/-! ### RecipientMatcher: searchBeneficiaries (src/services/database.js) -/

/-- A row of the Beneficiary table as returned by the first query of
`searchBeneficiaries` (name-matched, ordered by `transferCount` desc). -/
structure BenRow where
  id : Nat
  recipientName : String
  accountNumber : List Char
  bankName : Option String
  bankAccount : Option (List Char)
  nickname : Option String
  transferCount : Nat
  deriving Repr, DecidableEq

/-- A customer row as returned by the second query (name-matched, sender
excluded), with its included non-deleted accounts (`take: 1`). -/
structure CustRow where
  id : Nat
  customerName : String
  bankName : Option String
  accounts : List AccountInfo
  deriving Repr, DecidableEq

/-- A transaction row as returned by the third query (receiver-name
matched, most recent first). -/
structure TxnHistRow where
  receiverName : String
  accountNumber : List Char
  bankName : Option String
  bankAccount : Option (List Char)
  deriving Repr, DecidableEq

/-- The dedup key `` `${accountNumber}-${bankName || ''}` `` used by
`seenAccounts`. -/
def dedupKey (accountNumber : List Char) (bankName : Option String) : List Char :=
  accountNumber ++ '-' :: (bankName.getD "").toList

/-- The candidate pushed for a saved beneficiary. -/
def benCand (b : BenRow) : Cand :=
  { id := some b.id, customerId := none, name := b.recipientName
    accountNumber := b.accountNumber, bankName := b.bankName
    bankAccount := b.bankAccount, nickname := b.nickname
    last4Digits := lastN 4 b.accountNumber, transferCount := b.transferCount
    source := "beneficiary" }

/-- The candidate pushed for another customer's first active account
(`bankName: account.bankName || c.bankName`). -/
def custCand (c : CustRow) (account : AccountInfo) : Cand :=
  { id := none, customerId := some c.id, name := c.customerName
    accountNumber := account.accountNumber
    bankName := account.bankName.or c.bankName
    bankAccount := some account.accountNumber, nickname := none
    last4Digits := lastN 4 account.accountNumber, transferCount := 0
    source := "customer" }

/-- The candidate pushed for a past transaction counterparty. -/
def txnCand (t : TxnHistRow) : Cand :=
  { id := none, customerId := none, name := t.receiverName
    accountNumber := t.accountNumber, bankName := t.bankName
    bankAccount := some (t.bankAccount.getD t.accountNumber), nickname := none
    last4Digits := lastN 4 t.accountNumber, transferCount := 0
    source := "transaction" }

/-- The three sources in processing order, each paired with its dedup key:
saved beneficiaries, then customers that have at least one active account
(the others are skipped without touching `seenAccounts`), then the first
50 fetched transactions (`take: 50` in the query). -/
def searchKeyedInput (bens : List BenRow) (custs : List CustRow)
    (txns : List TxnHistRow) : List (List Char × Cand) :=
  bens.map (fun b => (dedupKey b.accountNumber b.bankName, benCand b))
    ++ custs.filterMap (fun c =>
        match c.accounts with
        | [] => none
        | account :: _ =>
          some (dedupKey account.accountNumber account.bankName, custCand c account))
    ++ (txns.take 50).map (fun t => (dedupKey t.accountNumber t.bankName, txnCand t))

/-- The three sequential `forEach` loops of `searchBeneficiaries` sharing
one `seenAccounts` set and one `results` array: process the keyed items
in order, skipping any whose key was already seen. -/
def dedupPass (seen : List (List Char)) : List (List Char × Cand) → List Cand
  | [] => []
  | (k, c) :: rest =>
    if seen.contains k then dedupPass seen rest
    else c :: dedupPass (k :: seen) rest

/-- `searchBeneficiaries(customerId, name)` from the database service, as
a function of the rows its three queries returned. -/
def searchBeneficiaries (bens : List BenRow) (custs : List CustRow)
    (txns : List TxnHistRow) : List Cand :=
  dedupPass [] (searchKeyedInput bens custs txns)

/-- Modelled from the spec: keep the first occurrence of every dedup key,
dropping the later ones ("first occurrence wins"). -/
def dedupByKey : List (List Char × Cand) → List Cand
  | [] => []
  | (k, c) :: rest => c :: dedupByKey (rest.filter (fun p => p.1 != k))
termination_by l => l.length
decreasing_by
  simp only [List.length_cons]
  exact Nat.lt_succ_of_le (List.length_filter_le _ _)

/-- Fifty-one distinct saved beneficiaries named "John Doe". -/
def c9Bens : List BenRow :=
  (List.range 51).map (fun i =>
    ⟨i, "John Doe", List.replicate (i + 1) '1', none, none, none, 0⟩)

/-! ### Message parsing (the regexes of src/routes/transfer.js)

Each function below implements one JS regex's observable behaviour
(leftmost match, greedy quantifiers, `\b` word boundaries) as a scanner
over the character list. -/

/-- Digits-to-number, as `parseInt`/`parseFloat` read a digit run. -/
def natFromDigits (l : List Char) : Nat :=
  l.foldl (fun n c => n * 10 + (c.toNat - 48)) 0

/-- The `(?:,\d{3})*` groups after the integer digit run of the amount
regex: repeatedly consume a comma followed by exactly three digits,
returning the collected digits and the rest. -/
def commaGroups : List Char → List Char × List Char
  | ',' :: d1 :: d2 :: d3 :: rest =>
    if d1.isDigit && d2.isDigit && d3.isDigit then
      let p := commaGroups rest
      (d1 :: d2 :: d3 :: p.1, p.2)
    else ([], ',' :: d1 :: d2 :: d3 :: rest)
  | rest => ([], rest)

/-- `message.match(/(\d+(?:,\d{3})*(?:\.\d{2})?)/)` followed by
`parseFloat(match[1].replace(/,/g, ''))`: the leftmost digit run, its
comma groups, and an optional two-digit decimal part. -/
def extractAmount : List Char → Option Rat
  | [] => none
  | c :: rest =>
    if c.isDigit then
      let run := (c :: rest).takeWhile Char.isDigit
      let after := (c :: rest).dropWhile Char.isDigit
      let p := commaGroups after
      let intPart : Rat := (natFromDigits (run ++ p.1) : Nat)
      match p.2 with
      | '.' :: d1 :: d2 :: _ =>
        if d1.isDigit && d2.isDigit then
          some (intPart + (natFromDigits [d1, d2] : Nat) / 100)
        else some intPart
      | _ => some intPart
    else extractAmount rest

/-- Whether an optional previous character is a `\b`-compatible left
context (start of string or a non-word character). -/
def prevNonWord (prev : Option Char) : Bool :=
  prev.all (fun p => !isWordChar p)

/-- `message.match(/\b(\d{10})\b/)`: scan for the leftmost position,
preceded by a non-word character (or the start), holding exactly ten
digits followed by a non-word character (or the end). -/
def findTenDigit (prev : Option Char) : List Char → Option (List Char)
  | [] => none
  | c :: rest =>
    let l := c :: rest
    if prevNonWord prev && decide ((l.take 10).length = 10)
        && (l.take 10).all Char.isDigit
        && (l.drop 10).head?.all (fun n => !isWordChar n) then
      some (l.take 10)
    else findTenDigit (some c) rest

def extractTenDigit (l : List Char) : Option (List Char) :=
  findTenDigit none l

/-- Whether the string has two consecutive digits — exactly what
`/\d{2,}(?:[,\d]{3})*(?:\.\d{2})?/.test` amounts to, since the trailing
groups can match emptily. -/
def hasTwoDigitRun : List Char → Bool
  | c1 :: c2 :: rest => (c1.isDigit && c2.isDigit) || hasTwoDigitRun (c2 :: rest)
  | _ => false

/-- Greedy `[A-Z][a-z]+` (case-sensitive): an uppercase letter followed
by a maximal nonempty lowercase run; returns the rest.  A shorter run
cannot lead anywhere a maximal one cannot, because both the following
`\s` and a closing `\b` reject the lowercase letter that would follow. -/
def ucWordAt : List Char → Option (List Char)
  | [] => none
  | c :: rest =>
    if c.isUpper then
      let lows := rest.takeWhile Char.isLower
      if lows.length ≥ 1 then some (rest.drop lows.length) else none
    else none

/-- Greedy `[A-Z][a-z]+` under the `/i` flag: any letter followed by a
maximal run of at least one more letter. -/
def letterWordAt : List Char → Option (List Char)
  | [] => none
  | c :: rest =>
    if c.isAlpha then
      let lows := rest.takeWhile Char.isAlpha
      if lows.length ≥ 1 then some (rest.drop lows.length) else none
    else none

/-- A closing `\b` holds when the rest is empty or starts with a
non-word character. -/
def nameBoundaryOk (l : List Char) : Bool :=
  match l with
  | [] => true
  | c :: _ => !isWordChar c

/-- Test of `(?:\s+word)*` continuations followed by `\b`, having already
matched `k` words, with at least `minWords` required: succeed at any stop
with enough words and a boundary (regex backtracking), or consume
`\s+word` and continue.  `fuel` only bounds the recursion; each step
consumes at least three characters, so `fuel := l.length` never runs
out. -/
def nameChainTest (wordAt : List Char → Option (List Char)) (minWords : Nat) :
    Nat → List Char → Nat → Bool
  | 0, _, _ => false
  | fuel + 1, l, k =>
    (decide (k ≥ minWords) && nameBoundaryOk l)
      || (let ws := l.takeWhile isSpaceChar
          if ws.length ≥ 1 then
            match wordAt (l.drop ws.length) with
            | some rest => nameChainTest wordAt minWords fuel rest (k + 1)
            | none => false
          else false)

/-- `/\b[A-Z][a-z]+(?:\s+[A-Z][a-z]+)+\b/.test` (case-sensitive): scan
for a boundary-preceded capitalized word followed by at least one more,
ending at a boundary. -/
def scanNamePattern (prev : Option Char) : List Char → Bool
  | [] => false
  | c :: rest =>
    (prevNonWord prev
      && (match ucWordAt (c :: rest) with
          | some after => nameChainTest ucWordAt 2 (c :: rest).length after 1
          | none => false))
    || scanNamePattern (some c) rest

/-- `/\b(to|for)\s+[A-Z][a-z]+(?:\s+[A-Z][a-z]+)*\b/i.test`: a
boundary-preceded `to` or `for`, whitespace, then at least one word,
ending at a boundary. -/
def matchToForAt (l : List Char) : Bool :=
  let tryTail (tail : List Char) : Bool :=
    let ws := tail.takeWhile isSpaceChar
    if ws.length ≥ 1 then
      match letterWordAt (tail.drop ws.length) with
      | some rest => nameChainTest letterWordAt 1 tail.length rest 1
      | none => false
    else false
  match l with
  | t :: o :: rest =>
    if (t == 't' || t == 'T') && (o == 'o' || o == 'O') then tryTail rest
    else
      match o :: rest with
      | o' :: r' :: rest' =>
        if (t == 'f' || t == 'F') && (o' == 'o' || o' == 'O')
            && (r' == 'r' || r' == 'R') then tryTail rest'
        else false
      | _ => false
  | _ => false

def scanToForName (prev : Option Char) : List Char → Bool
  | [] => false
  | c :: rest =>
    (prevNonWord prev && matchToForAt (c :: rest)) || scanToForName (some c) rest

/-- Greedy capture of `(?:\s+[A-Z][a-z]+)*` continuations (no trailing
boundary in the capturing pattern): collect as many `\s+word` groups as
possible, returning the captured characters and the group count.  The
fuel argument bounds recursion as in `nameChainTest`. -/
def nameChainMore : Nat → List Char → List Char × Nat
  | 0, _ => ([], 0)
  | fuel + 1, l =>
    let ws := l.takeWhile isSpaceChar
    if ws.length ≥ 1 then
      match letterWordAt (l.drop ws.length) with
      | some rest =>
        let consumed := l.length - rest.length
        let p := nameChainMore fuel rest
        (l.take consumed ++ p.1, p.2 + 1)
      | none => ([], 0)
    else ([], 0)

/-- `message.match(/to\s+([A-Z][a-z]+(?:\s+[A-Z][a-z]+)+)/i)` and
`match[1].trim()`: at a leftmost case-insensitive `to`, whitespace, a
word and at least one further word, the capture is the greedy word chain.
The other two name patterns of the source
(`/send.*?to\s+…/i`, `/transfer.*?to\s+…/i`) are subsumed: any of their
matches contains a match of the first pattern, so when the first fails
the loop's later patterns fail as well. -/
def extractNameScan : List Char → Option String
  | [] => none
  | c :: rest =>
    (match c :: rest with
      | t :: o :: tail =>
        if (t == 't' || t == 'T') && (o == 'o' || o == 'O') then
          let ws := tail.takeWhile isSpaceChar
          if ws.length ≥ 1 then
            let afterWs := tail.drop ws.length
            match letterWordAt afterWs with
            | some rest1 =>
              let w := afterWs.take (afterWs.length - rest1.length)
              let p := nameChainMore rest1.length rest1
              if p.2 ≥ 1 then some (String.mk (trimChars (w ++ p.1))) else none
            | none => none
          else none
        else none
      | _ => none).orElse (fun _ => extractNameScan rest)

def extractRecipientName (l : List Char) : Option String :=
  extractNameScan l

/-! ### Transfer route orchestrator (src/routes/transfer.js) -/

/-- The distinguishable reply texts of the transfer route, with the data
interpolated into each template. -/
inductive RouteMsg where
  | messageRequired
  | notClearTransfer
  | notClearSelection
  | needAmount
  | needRecipient
  | noActiveAccount
  | insufficientAll
  | insufficientBalance
  | selectAccount (count : Nat) (endings : List (List Char))
  | verifyFailed (accountNumber : List Char)
  | verifiedPendingPin (accountNumber : List Char) (name : String) (bank : String) (amount : Rat)
  | userNotFound (name : String)
  | foundSingle (name : String) (last4 : List Char) (amount : Rat)
  | selectBeneficiary (count : Nat) (name : String) (endings : List (List Char))
  | insufficientSelected (ending : List Char) (endings : List (List Char))
  | didNotUnderstand (endings : List (List Char))
  | notFoundEnding (ending : List Char) (endings : List (List Char))
  | selectedBeneficiary (name : String) (last4 : List Char) (amount : Rat)
  deriving Repr, DecidableEq

/-- The `{response, transactionId, action}` objects the transfer handlers
return (the route forwards `response` and `transactionId`). -/
structure TransferReply where
  response : RouteMsg
  transactionId : Option String
  action : Option String
  deriving Repr, DecidableEq

/-- A successful `verifyAccount` result (`account_number`,
`account_name`, `bank_name`). -/
structure VerifiedAccount where
  accountNumber : List Char
  accountName : String
  bankName : String
  deriving Repr, DecidableEq

/-- External collaborators of the transfer route: `searchBeneficiaries`,
`getAccountBalance` and Paystack's `verifyAccount` (which may throw). -/
structure TransferEnv where
  search : Nat → String → List Cand
  accountsOf : Nat → List AccountInfo
  verify : List Char → Except String VerifiedAccount

/-- JS `haystack.includes(needle)`: whether `needle` occurs as a
contiguous substring. -/
def hasSubstring (needle : List Char) : List Char → Bool
  | [] => needle.isEmpty
  | c :: rest => needle.isPrefixOf (c :: rest) || hasSubstring needle rest

/-- The ten selection words of the account-selection regex and of
`isValidSelectionMessage`, in source order. -/
def selectionWords : List (List Char) :=
  ["first", "second", "third", "fourth", "fifth",
   "one", "two", "three", "four", "five"].map String.toList

/-- The five ordinal words of `extractBeneficiarySelection`. -/
def ordinalWords : List (List Char) :=
  ["first", "second", "third", "fourth", "fifth"].map String.toList

/-- `str.match(/(\d+)|(word1|…|wordk)/i)` on an already-lowercased
string: at the leftmost matching position, `some (some n)` when the digit
alternative matched a run of value `n`, `some none` when a word
alternative matched.  A digit and a letter cannot start at the same
position, so the alternation order collapses to this case split. -/
def matchNumberOrWord (words : List (List Char)) : List Char → Option (Option Nat)
  | [] => none
  | c :: rest =>
    if c.isDigit then
      some (some (natFromDigits ((c :: rest).takeWhile Char.isDigit)))
    else if words.any (fun w => w.isPrefixOf (c :: rest)) then some none
    else matchNumberOrWord words rest

/-- `words.findIndex(w => msg.includes(w))`, JS-style: `-1` when none
is a substring. -/
def findIncludedWord (words : List (List Char)) (msg : List Char) : Int :=
  match words.findIdx? (fun w => hasSubstring w msg) with
  | some i => (i : Int)
  | none => -1

/-- `message.match(/(\d{4})/)`: the leftmost four consecutive digits. -/
def firstFourDigitRun : List Char → Option (List Char)
  | [] => none
  | c :: rest =>
    if decide (((c :: rest).take 4).length = 4)
        && ((c :: rest).take 4).all Char.isDigit then
      some ((c :: rest).take 4)
    else firstFourDigitRun rest

/-- `isValidTransferMessage(message)` from the transfer route.  The float
ratio tests `r > 0.25` and `r < 0.2` are written as the equivalent exact
integer comparisons. -/
def isValidTransferMessage (msg : List Char) : Bool :=
  if msg.length < 5 then false
  else
    let lower := lowerChars msg
    let transferKeywords := ["send", "transfer", "pay", "give", "move", "to"].map String.toList
    let hasTransferKeyword := transferKeywords.any (fun k => hasSubstring k lower)
    let hasMeaningfulAmount := hasTwoDigitRun msg
    let hasAccountNumber := (extractTenDigit msg).isSome
    let hasNamePattern := scanNamePattern none msg || scanToForName none msg
    let nonsensicalChars := msg.countP (fun c => !(c.isAlpha || c.isDigit || isSpaceChar c))
    if nonsensicalChars * 4 > msg.length
        && !hasMeaningfulAmount && !hasAccountNumber && !hasNamePattern then false
    else if hasTransferKeyword && hasMeaningfulAmount && (hasAccountNumber || hasNamePattern) then true
    else if hasMeaningfulAmount && hasAccountNumber then true
    else if hasTransferKeyword && hasMeaningfulAmount && nonsensicalChars * 5 < msg.length then true
    else false

/-- `isValidSelectionMessage(message, pendingTransaction)`: the lowercased
trimmed message must contain a stored candidate's last four digits or
match the number/word pattern, and at most 40% of the raw message may be
non-alphanumeric, non-space characters. -/
def isValidSelectionMessage (msg : List Char) (pt : PendingTxn) : Bool :=
  if msg.length < 1 then false
  else
    let lower := trimChars (lowerChars msg)
    let accountEndings := (pt.beneficiaries.getD []).map (·.last4Digits)
    let hasAccountEnding := accountEndings.any (fun e => hasSubstring e lower)
    let hasNumberSelection := (matchNumberOrWord selectionWords lower).isSome
    let nonsensicalChars := msg.countP (fun c => !(c.isAlpha || c.isDigit || isSpaceChar c))
    if nonsensicalChars * 5 > msg.length * 2 then false
    else hasAccountEnding || hasNumberSelection

/-- `extractBeneficiarySelection(selection, beneficiaries)`: first
candidate whose last four digits occur in the lowercased trimmed
selection, else the candidate at the position named by the number/ordinal
match (JS `parseInt(digits) - 1`, or `findIndex` over the five ordinals),
else `null`. -/
def extractBeneficiarySelection (selection : List Char) (beneficiaries : List Cand) :
    Option Cand :=
  if selection.isEmpty then none
  else
    let s := trimChars (lowerChars selection)
    match beneficiaries.find? (fun b => hasSubstring b.last4Digits s) with
    | some b => some b
    | none =>
      match matchNumberOrWord ordinalWords s with
      | none => none
      | some g =>
        let index : Int :=
          match g with
          | some n => (n : Int) - 1
          | none => findIncludedWord ordinalWords s
        if 0 ≤ index ∧ index < (beneficiaries.length : Int) then
          beneficiaries.get? index.toNat
        else none

/-- `handleBeneficiarySelection(message, pendingTransaction)`: `none` when
the selection could not be understood (the caller answers, the store is
untouched); otherwise the pending transaction is bound to the selected
candidate, moved to `pending_pin`, its candidate list and recipient name
deleted, and written back to the Map. -/
def handleBeneficiarySelection (msg : List Char) (pt : PendingTxn) (st : Store) :
    Option TransferReply × Store :=
  match extractBeneficiarySelection msg (pt.beneficiaries.getD []) with
  | none => (none, st)
  | some sel =>
    let pt' := { pt with beneficiary := some sel, status := "pending_pin", beneficiaries := none, recipientName := none }
    (some { response := .selectedBeneficiary sel.name sel.last4Digits pt.amount,
            transactionId := some pt.id, action := some "verify_pin" },
     storeSet pt.id pt' st)

/-- The beneficiary record both the transfer route and
`continueTransferAfterAccountSelection` build from a `verifyAccount`
result (`id: null`, `source: 'account_verification'`; fields the JS
object leaves undefined are `none`/`0`). -/
def verifiedCand (details : VerifiedAccount) : Cand :=
  { id := none, customerId := none, name := details.accountName
    accountNumber := details.accountNumber, bankName := some details.bankName
    bankAccount := some details.accountNumber, nickname := none
    last4Digits := lastN 4 details.accountNumber, transferCount := 0
    source := "account_verification" }

/-- `continueTransferAfterAccountSelection(pendingTransaction)`: with a
stored account number, verify it (binding the verified beneficiary and
moving to `pending_pin`, or reporting failure with the store untouched);
otherwise resolve the stored recipient name through `searchBeneficiaries`
with the same none/one/many outcomes as a fresh request, updating the
stored entry in place. -/
def continueTransferAfterAccountSelection (pt : PendingTxn) (env : TransferEnv)
    (st : Store) : TransferReply × Store :=
  match pt.accountNumber with
  | some acctNum =>
    match env.verify acctNum with
    | .ok details =>
      let pt' := { pt with beneficiary := some (verifiedCand details), status := "pending_pin" }
      ({ response := RouteMsg.verifiedPendingPin details.accountNumber details.accountName details.bankName pt.amount,
         transactionId := some pt.id, action := some "verify_pin" },
       storeSet pt.id pt' st)
    | .error _ =>
      ({ response := .verifyFailed acctNum, transactionId := none, action := none }, st)
  | none =>
    let name := pt.recipientName.getD ""
    match env.search pt.customerId name with
    | [] => ({ response := .userNotFound name, transactionId := none, action := none }, st)
    | [b] =>
      let pt' := { pt with beneficiary := some b, status := "pending_pin" }
      ({ response := .foundSingle b.name b.last4Digits pt.amount,
         transactionId := some pt.id, action := some "verify_pin" },
       storeSet pt.id pt' st)
    | b1 :: b2 :: bs =>
      let pt' := { pt with beneficiaries := some (b1 :: b2 :: bs), status := "beneficiary_selection" }
      ({ response := RouteMsg.selectBeneficiary (b1 :: b2 :: bs).length name ((b1 :: b2 :: bs).map (·.last4Digits)),
         transactionId := some pt.id, action := some "select_beneficiary" },
       storeSet pt.id pt' st)

/-- The fields both selection paths of `handleAccountSelection` assign
before continuing: the source account, its id, status `processing`, and
deletion of the account list (`amount`, `recipientName` and
`accountNumber` are reassigned to themselves in the flat model). -/
def bindSelectedAccount (pt : PendingTxn) (selected : AccountInfo) : PendingTxn :=
  { pt with sourceAccount := some selected, accountId := some selected.id, status := "processing", accounts := none }

/-- A fallback `AccountInfo` for the in-bounds-guarded `accounts[index]`
access. -/
def defaultAccount : AccountInfo :=
  { id := 0, accountNumber := [], balance := 0, currency := "", bankName := none }

/-- The shared tail of both selection paths of `handleAccountSelection`:
bind the selected account, write the entry back, and continue the
transfer. -/
def acceptSelectedAccount (pt : PendingTxn) (sel : AccountInfo) (env : TransferEnv)
    (st : Store) : TransferReply × Store :=
  let pt' := bindSelectedAccount pt sel
  continueTransferAfterAccountSelection pt' env (storeSet pt.id pt' st)

/-- `handleAccountSelection(message, pendingTransaction)`: a four-digit
run selects by account ending, otherwise the number/word match selects by
position (with the `wordIndex % 5` mapping and the `index = 0` fallback
of the source); a selected account with sufficient balance is bound and
the transfer continues, otherwise the route re-prompts with the account
endings and the stored entry unchanged. -/
def handleAccountSelection (msg : List Char) (pt : PendingTxn) (env : TransferEnv)
    (st : Store) : Option TransferReply × Store :=
  let accounts := pt.accounts.getD []
  let endings := accounts.map (fun acc => lastN 4 acc.accountNumber)
  match firstFourDigitRun msg with
  | none =>
    let lower := trimChars (lowerChars msg)
    match matchNumberOrWord selectionWords lower with
    | some g =>
      let index : Int :=
        match g with
        | some n => (n : Int) - 1
        | none =>
          let wi := findIncludedWord selectionWords lower
          if 0 ≤ wi ∧ wi < 5 then wi % 5 else 0
      if 0 ≤ index ∧ index < (accounts.length : Int) then
        let selected := accounts.getD index.toNat defaultAccount
        if selected.balance < pt.amount then
          (some { response := .insufficientSelected (lastN 4 selected.accountNumber) endings,
                  transactionId := some pt.id, action := some "select_account" }, st)
        else
          let r := acceptSelectedAccount pt selected env st
          (some r.1, r.2)
      else
        (some { response := .didNotUnderstand endings,
                transactionId := some pt.id, action := some "select_account" }, st)
    | none =>
      (some { response := .didNotUnderstand endings,
              transactionId := some pt.id, action := some "select_account" }, st)
  | some ending =>
    match accounts.find? (fun acc => lastN 4 acc.accountNumber == ending) with
    | none =>
      (some { response := .notFoundEnding ending endings,
              transactionId := some pt.id, action := some "select_account" }, st)
    | some selected =>
      if selected.balance < pt.amount then
        (some { response := .insufficientSelected ending endings,
                transactionId := some pt.id, action := some "select_account" }, st)
      else
        let r := acceptSelectedAccount pt selected env st
        (some r.1, r.2)

/-- `processTransferRequest(message, customerId)` (the
`extractIntentWithGemini` result is computed but never used).  JS
`!amount` also treats an extracted `0` as missing, hence the `getD 0`
comparison. -/
def processTransferRequest (msg : List Char) (customerId : Nat) (env : TransferEnv)
    (newId : String) (now : Nat) (st : Store) : TransferReply × Store :=
  let amount := (extractAmount msg).getD 0
  if amount = 0 then
    ({ response := .needAmount, transactionId := none, action := none }, st)
  else
    let accountNumber := extractTenDigit msg
    let recipientName := if accountNumber.isSome then none else extractRecipientName msg
    if accountNumber.isNone && recipientName.isNone then
      ({ response := .needRecipient, transactionId := none, action := none }, st)
    else
      let accounts := env.accountsOf customerId
      if accounts.length = 0 then
        ({ response := .noActiveAccount, transactionId := none, action := none }, st)
      else if accounts.length > 1 then
        if (accounts.filter (fun acc => amount ≤ acc.balance)).length = 0 then
          ({ response := .insufficientAll, transactionId := none, action := none }, st)
        else
          let st' := createPendingTransaction newId now "transfer" customerId
            { basePending with
              accounts := some accounts, amount := amount
              recipientName := recipientName, accountNumber := accountNumber
              status := "account_selection" } st
          ({ response := RouteMsg.selectAccount accounts.length (accounts.map (fun acc => lastN 4 acc.accountNumber)),
             transactionId := some newId, action := some "select_account" }, st')
      else
        let account := accounts.getD 0 defaultAccount
        if account.balance < amount then
          ({ response := .insufficientBalance, transactionId := none, action := none }, st)
        else
          match accountNumber with
          | some acctNum =>
            match env.verify acctNum with
            | .ok details =>
              let st' := createPendingTransaction newId now "transfer" customerId
                { basePending with
                  beneficiary := some (verifiedCand details)
                  amount := amount, accountId := some account.id
                  status := "pending_pin" } st
              ({ response := RouteMsg.verifiedPendingPin details.accountNumber details.accountName details.bankName amount,
                 transactionId := some newId, action := some "verify_pin" }, st')
            | .error _ =>
              ({ response := .verifyFailed acctNum, transactionId := none, action := none }, st)
          | none =>
            let name := recipientName.getD ""
            match env.search customerId name with
            | [] => ({ response := .userNotFound name, transactionId := none, action := none }, st)
            | [b] =>
              let st' := createPendingTransaction newId now "transfer" customerId
                { basePending with
                  beneficiary := some b, amount := amount
                  accountId := some account.id, status := "pending_pin" } st
              ({ response := .foundSingle b.name b.last4Digits amount,
                 transactionId := some newId, action := some "verify_pin" }, st')
            | b1 :: b2 :: bs =>
              let st' := createPendingTransaction newId now "transfer" customerId
                { basePending with
                  beneficiaries := some (b1 :: b2 :: bs)
                  amount := amount, accountId := some account.id
                  recipientName := some name
                  status := "beneficiary_selection" } st
              ({ response := RouteMsg.selectBeneficiary (b1 :: b2 :: bs).length name ((b1 :: b2 :: bs).map (·.last4Digits)),
                 transactionId := some newId, action := some "select_beneficiary" }, st')

/-- `router.post('/')` of the transfer route, for an authenticated
customer: trim and validate the message, dispatch to the
account-selection or beneficiary-selection handler when a pending
selection exists for this customer, and otherwise process a new transfer
request. -/
def transferRoute (msg : List Char) (customerId : Nat) (env : TransferEnv)
    (newId : String) (now : Nat) (st : Store) : TransferReply × Store :=
  let trimmed := trimChars msg
  if trimmed.length = 0 then
    ({ response := .messageRequired, transactionId := none, action := none }, st)
  else if !isValidTransferMessage trimmed then
    ({ response := .notClearTransfer, transactionId := none, action := none }, st)
  else
    match st.find? (fun p => p.2.customerId == customerId && p.2.type == "transfer"
        && (p.2.status == "beneficiary_selection" || p.2.status == "account_selection")) with
    | some kp =>
      if kp.2.status == "account_selection" then
        match handleAccountSelection trimmed kp.2 env st with
        | (some r, st') => (r, st')
        | (none, st') =>
          ({ response := .notClearSelection, transactionId := none, action := none }, st')
      else if !isValidSelectionMessage trimmed kp.2 then
        ({ response := .notClearSelection, transactionId := none, action := none }, st)
      else
        match handleBeneficiarySelection trimmed kp.2 st with
        | (some r, st') => (r, st')
        | (none, st') =>
          ({ response := .notClearSelection, transactionId := none, action := none }, st')
    | none => processTransferRequest trimmed customerId env newId now st

/-- The `{response: not clear…}` selection fallback reply of the route. -/
def notClearSelectionReply : TransferReply :=
  { response := .notClearSelection, transactionId := none, action := none }

/-- Alice's single funded account as `getAccountBalance` reports it. -/
def aliceInfo : AccountInfo :=
  { id := 1, accountNumber := "1111111111".toList, balance := 500
    currency := "NGN", bankName := none }

/-- An environment whose name search finds exactly Bob and whose account
list holds only Alice's account. -/
def c6Env : TransferEnv :=
  { search := fun _ _ => [bobCand], accountsOf := fun _ => [aliceInfo]
    verify := fun _ => Except.error "unreachable" }

/-- A second candidate, for two-result searches. -/
def janeCand : Cand :=
  { id := some 9, customerId := none, name := "Jane"
    accountNumber := "4444444444".toList, bankName := some "GTB"
    bankAccount := some ("4444444444".toList), nickname := none
    last4Digits := "4444".toList, transferCount := 2, source := "beneficiary" }

/-- An account ending 1111 with balance 40. -/
def acc1111 : AccountInfo :=
  { id := 11, accountNumber := "1111111111".toList, balance := 40
    currency := "NGN", bankName := none }

/-- An account ending 2222 with balance 5000. -/
def acc2222 : AccountInfo :=
  { id := 22, accountNumber := "3333332222".toList, balance := 5000
    currency := "NGN", bankName := none }

/-- A pending transfer of customer 7 awaiting account selection between
the accounts ending 1111 and 2222. -/
def c8Pt : PendingTxn :=
  { basePending with
    id := "T8", type := "transfer", customerId := 7, createdAt := 0
    status := "account_selection", amount := 100
    accounts := some [acc1111, acc2222], recipientName := some "John Doe" }

/-- An environment whose name search returns two candidates. -/
def c8Env : TransferEnv :=
  { search := fun _ _ => [bobCand, janeCand], accountsOf := fun _ => []
    verify := fun _ => Except.error "service unavailable" }

/-- A pending transfer of customer 3 awaiting beneficiary selection
between Bob (ending 2222) and Jane (ending 4444). -/
def c8bPt : PendingTxn :=
  { basePending with
    id := "TB", type := "transfer", customerId := 3, createdAt := 0
    status := "beneficiary_selection", amount := 250
    beneficiaries := some [bobCand, janeCand] }

/-- A store holding only the beneficiary-selection transfer `TB`. -/
def c8bSt : Store := [("TB", c8bPt)]

/-- A store holding only the account-selection transfer `T8`. -/
def c10aSt : Store := [("T8", c8Pt)]

/-! ### Lemmas about the NUBAN embedding -/

theorem digitsOf_append {xs ys : List Char} {as bs : List Nat}
    (hx : digitsOf xs = some as) (hy : digitsOf ys = some bs) :
    digitsOf (xs ++ ys) = some (as ++ bs) := by
  induction xs generalizing as with
  | nil => simp [digitsOf] at hx; simp [hx, hy]
  | cons c cs ih =>
    simp only [digitsOf] at hx ⊢
    cases hc : charToDigit c with
    | none => simp [hc] at hx
    | some d =>
      cases hcs : digitsOf cs with
      | none => simp [hc, hcs] at hx
      | some ds =>
        simp [hc, hcs] at hx
        simp [List.cons_append, digitsOf, hc, ih hcs, ← hx]

theorem digitsOf_length {xs : List Char} {as : List Nat}
    (hx : digitsOf xs = some as) : as.length = xs.length := by
  induction xs generalizing as with
  | nil => simp [digitsOf] at hx; simp [hx]
  | cons c cs ih =>
    simp only [digitsOf] at hx
    cases hc : charToDigit c with
    | none => simp [hc] at hx
    | some d =>
      cases hcs : digitsOf cs with
      | none => simp [hc, hcs] at hx
      | some ds => simp [hc, hcs] at hx; simp [← hx, ih hcs]

theorem digitsOf_take {xs : List Char} {as : List Nat} (n : Nat)
    (hx : digitsOf xs = some as) : digitsOf (xs.take n) = some (as.take n) := by
  induction xs generalizing as n with
  | nil => simp [digitsOf] at hx; simp [hx, digitsOf]
  | cons c cs ih =>
    simp only [digitsOf] at hx
    cases hc : charToDigit c with
    | none => simp [hc] at hx
    | some d =>
      cases hcs : digitsOf cs with
      | none => simp [hc, hcs] at hx
      | some ds =>
        simp [hc, hcs] at hx
        cases n with
        | zero => simp [← hx, digitsOf]
        | succ m => simp [← hx, List.take_succ_cons, digitsOf, hc, ih m hcs]

theorem digitsOf_getD {xs : List Char} {as : List Nat} {j : Nat}
    (hx : digitsOf xs = some as) (hj : j < xs.length) :
    charToDigit (xs.getD j ' ') = some (as.getD j 0) := by
  induction xs generalizing as j with
  | nil => simp at hj
  | cons c cs ih =>
    simp only [digitsOf] at hx
    cases hc : charToDigit c with
    | none => simp [hc] at hx
    | some d =>
      cases hcs : digitsOf cs with
      | none => simp [hc, hcs] at hx
      | some ds =>
        simp [hc, hcs] at hx
        cases j with
        | zero => simp [← hx, hc]
        | succ m =>
          simp at hj
          simpa [← hx] using ih hcs (by omega)

theorem digitsOf_set {xs : List Char} {as : List Nat} {j : Nat} {c' : Char} {d' : Nat}
    (hx : digitsOf xs = some as) (hc' : charToDigit c' = some d') :
    digitsOf (xs.set j c') = some (as.set j d') := by
  induction xs generalizing as j with
  | nil => simp [digitsOf] at hx; subst hx; simp [digitsOf]
  | cons c cs ih =>
    simp only [digitsOf] at hx
    cases hc : charToDigit c with
    | none => simp [hc] at hx
    | some d =>
      cases hcs : digitsOf cs with
      | none => simp [hc, hcs] at hx
      | some ds =>
        simp [hc, hcs] at hx
        cases j with
        | zero => simp [← hx, digitsOf, hc', hcs]
        | succ m => simp [← hx, digitsOf, hc, ih hcs]

theorem nubanWeight_cases (i : Nat) : nubanWeight i = 3 ∨ nubanWeight i = 7 := by
  have h : i % 12 < 12 := Nat.mod_lt _ (by norm_num)
  unfold nubanWeight
  interval_cases h' : i % 12 <;> simp [nubanWeights]

theorem nubanSumFrom_append (i : Nat) (xs ys : List Nat) :
    nubanSumFrom i (xs ++ ys) = nubanSumFrom i xs + nubanSumFrom (i + xs.length) ys := by
  induction xs generalizing i with
  | nil => simp [nubanSumFrom]
  | cons d ds ih =>
    have harith : i + 1 + ds.length = i + (d :: ds).length := by simp; omega
    show d * nubanWeight i + nubanSumFrom (i + 1) (ds ++ ys) = _
    rw [ih (i + 1), harith]
    show _ = d * nubanWeight i + nubanSumFrom (i + 1) ds + nubanSumFrom (i + (d :: ds).length) ys
    ring

theorem nubanSumFrom_set {ds : List Nat} {j : Nat} (i : Nat) (d' : Nat)
    (hj : j < ds.length) :
    nubanSumFrom i (ds.set j d') + nubanWeight (i + j) * ds.getD j 0
      = nubanSumFrom i ds + nubanWeight (i + j) * d' := by
  induction ds generalizing i j with
  | nil => simp at hj
  | cons d ds ih =>
    cases j with
    | zero => simp [nubanSumFrom]; ring
    | succ m =>
      simp at hj
      have h := ih (i := i + 1) (j := m) (by omega)
      have harith : i + 1 + m = i + (m + 1) := by omega
      rw [harith] at h
      rw [List.set_cons_succ, List.getD_cons_succ]
      show d * nubanWeight i + nubanSumFrom (i + 1) (ds.set m d') + _ = _
      rw [Nat.add_assoc, h]
      show _ = d * nubanWeight i + nubanSumFrom (i + 1) ds + _
      rw [Nat.add_assoc]

theorem nubanSumFrom_eq_spec (i : Nat) (ds : List Nat) :
    nubanSumFrom i ds
      = ((ds.enumFrom i).map (fun p => p.2 * nubanWeights.getD (p.1 % nubanWeights.length) 0)).sum := by
  induction ds generalizing i with
  | nil => simp [nubanSumFrom]
  | cons d ds ih =>
    simp [nubanSumFrom, List.enumFrom, ih (i + 1), nubanWeight, nubanWeights]

theorem specWeightedSum_eq_nubanSumFrom (ds : List Nat) :
    specWeightedSum ds = nubanSumFrom 0 ds := by
  rw [specWeightedSum, nubanSumFrom_eq_spec 0 ds]
  rfl

theorem charToDigit_lt {c : Char} {d : Nat} (h : charToDigit c = some d) : d < 10 := by
  unfold charToDigit at h
  split at h
  · rename_i hd
    simp only [Option.some.injEq] at h
    unfold Char.isDigit at hd
    have h2 := (Bool.and_eq_true _ _).mp hd |>.2
    have h3 : c ≤ '9' := of_decide_eq_true h2
    have h5 : c.val.toNat ≤ ('9' : Char).val.toNat := h3
    have h6 : c.toNat ≤ 57 := by simpa [Char.toNat] using h5
    omega
  · exact absurd h (by simp)

theorem take_set_ge {α : Type} {l : List α} {i j : Nat} (c : α) (h : j ≤ i) :
    (l.set i c).take j = l.take j := by
  induction l generalizing i j with
  | nil => simp
  | cons a as ih =>
    cases i with
    | zero =>
      have hj0 : j = 0 := by omega
      subst hj0; simp
    | succ m =>
      cases j with
      | zero => simp
      | succ n => simp only [List.set_cons_succ, List.take_succ_cons]; rw [ih (by omega)]

theorem take_set_lt {α : Type} {l : List α} {i j : Nat} (c : α) (h : i < j) :
    (l.set i c).take j = (l.take j).set i c := by
  induction l generalizing i j with
  | nil => simp
  | cons a as ih =>
    cases i with
    | zero =>
      cases j with
      | zero => omega
      | succ n => simp
    | succ m =>
      cases j with
      | zero => omega
      | succ n =>
        simp only [List.set_cons_succ, List.take_succ_cons]
        rw [ih (by omega)]

theorem getD_set_ne {α : Type} {l : List α} {i k : Nat} (c d : α) (h : i ≠ k) :
    (l.set i c).getD k d = l.getD k d := by
  induction l generalizing i k with
  | nil => simp
  | cons a as ih =>
    cases i with
    | zero =>
      cases k with
      | zero => omega
      | succ n => simp
    | succ m =>
      cases k with
      | zero => simp
      | succ n =>
        simp only [List.set_cons_succ, List.getD_cons_succ]
        exact ih (by omega)

theorem getD_set_self {α : Type} {l : List α} {i : Nat} (c d : α) (h : i < l.length) :
    (l.set i c).getD i d = c := by
  induction l generalizing i with
  | nil => simp at h
  | cons a as ih =>
    cases i with
    | zero => simp
    | succ m =>
      simp only [List.set_cons_succ, List.getD_cons_succ]
      exact ih (by simpa using Nat.lt_of_succ_lt_succ h)

theorem getD_take_lt {α : Type} {l : List α} {j n : Nat} (d : α) (h : j < n) :
    (l.take n).getD j d = l.getD j d := by
  induction l generalizing j n with
  | nil => simp
  | cons a as ih =>
    cases n with
    | zero => omega
    | succ m =>
      cases j with
      | zero => simp
      | succ k =>
        simp only [List.take_succ_cons, List.getD_cons_succ]
        exact ih (by omega)

theorem digitsOf_append_split {xs ys : List Char} {zs : List Nat}
    (h : digitsOf (xs ++ ys) = some zs) :
    ∃ as bs, digitsOf xs = some as ∧ digitsOf ys = some bs ∧ zs = as ++ bs := by
  induction xs generalizing zs with
  | nil => exact ⟨[], zs, rfl, by simpa using h, by simp⟩
  | cons c cs ih =>
    rw [List.cons_append] at h
    simp only [digitsOf] at h
    cases hc : charToDigit c with
    | none => simp [hc] at h
    | some d =>
      cases hcs : digitsOf (cs ++ ys) with
      | none => simp [hc, hcs] at h
      | some ds =>
        simp [hc, hcs] at h
        obtain ⟨as, bs, h1, h2, h3⟩ := ih hcs
        exact ⟨d :: as, bs, by simp [digitsOf, hc, h1], h2, by simp [← h, h3]⟩

/-- Changing one summand of the weighted sum by a weight in `{3, 7}` always
changes the NUBAN check digit, because 3 and 7 are coprime to 10. -/
theorem checkDigit_shift {S S' dj d' W : Nat} (hW : W = 3 ∨ W = 7)
    (hdj : dj < 10) (hd' : d' < 10) (hne : d' ≠ dj)
    (hrel : S' + W * dj = S + W * d') :
    (10 - S' % 10) % 10 ≠ (10 - S % 10) % 10 := by
  rcases hW with rfl | rfl <;> omega

/-! ### Claims C4 and C5 -/

/-- C4: on a 10-digit all-digit account number and an all-digit
institution code, `validateNUBAN` holds exactly when the check digit
`(10 − (Σ digit×weight mod 10)) mod 10` — weights drawn from the cycle
`[3,7,3,3,7,3,3,7,3,3,7,3]` indexed by position mod 12 over the
institution code followed by the first 9 account digits — equals the
account number's 10th digit; and `detectPossibleBanks` returns exactly
the catalog entries whose code satisfies the checksum, as a list that may
hold zero, one, or several entries. -/
theorem validateNUBAN_iff_spec_and_detect_eq_filter
    (acct code : List Char) (ads cds : List Nat)
    (h10 : acct.length = 10)
    (ha : digitsOf acct = some ads) (hc : digitsOf code = some cds) :
    (validateNUBAN acct code = true ↔ specChecksumValid ads cds)
    ∧ ∀ (a : List Char) (catalog : List Bank),
        detectPossibleBanks a catalog
          = catalog.filter (fun bank => validateNUBAN a bank.code) := by
  constructor
  · have h9 : digitsOf (acct.take 9) = some (ads.take 9) := digitsOf_take 9 ha
    have hser : digitsOf (code ++ acct.take 9) = some (cds ++ ads.take 9) :=
      digitsOf_append hc h9
    have hlast : charToDigit (acct.getD 9 ' ') = some (ads.getD 9 0) :=
      digitsOf_getD ha (by omega)
    simp only [validateNUBAN, h10, hser, hlast]
    simp [specChecksumValid, specWeightedSum_eq_nubanSumFrom]
  · intro a catalog
    rw [detectPossibleBanks]
    split
    · rename_i hlen
      symm
      rw [List.filter_eq_nil_iff]
      intro b _
      simp [validateNUBAN, hlen]
    · rfl

/-- Witness for C4 at the concrete account number 0000000001 and
institution code 058 (for which the check digit is 1). -/
theorem validateNUBAN_iff_spec_witness :
    ("0000000001".toList.length = 10
      ∧ digitsOf "0000000001".toList = some [0, 0, 0, 0, 0, 0, 0, 0, 0, 1]
      ∧ digitsOf "058".toList = some [0, 5, 8])
    ∧ (validateNUBAN "0000000001".toList "058".toList = true
        ↔ specChecksumValid [0, 0, 0, 0, 0, 0, 0, 0, 0, 1] [0, 5, 8]) :=
  ⟨⟨by decide, by decide, by decide⟩,
    (validateNUBAN_iff_spec_and_detect_eq_filter "0000000001".toList "058".toList
      [0, 0, 0, 0, 0, 0, 0, 0, 0, 1] [0, 5, 8] (by decide) (by decide) (by decide)).1⟩

/-- C5: when a 10-digit account number has the valid check digit for an
institution code, every catalog entry carrying that code appears in
`detectPossibleBanks`; and replacing any single digit of the account
number by a different digit makes `validateNUBAN` false for that code. -/
theorem nuban_detect_includes_and_mutation_invalidates
    (acct code : List Char) (ads : List Nat)
    (h10 : acct.length = 10) (ha : digitsOf acct = some ads)
    (hvalid : validateNUBAN acct code = true) :
    (∀ (catalog : List Bank) (b : Bank),
        b ∈ catalog → b.code = code → b ∈ detectPossibleBanks acct catalog)
    ∧ (∀ j, j < 10 → ∀ (c' : Char) (d' : Nat), charToDigit c' = some d' →
        d' ≠ ads.getD j 0 → validateNUBAN (acct.set j c') code = false) := by
  constructor
  · intro catalog b hb hbc
    rw [detectPossibleBanks, if_neg (by omega)]
    exact List.mem_filter.mpr ⟨hb, by rw [hbc]; exact hvalid⟩
  · intro j hj c' d' hc' hne
    -- dissect the hypothesis that the original account number is valid
    simp only [validateNUBAN, h10] at hvalid
    rw [if_neg (by omega)] at hvalid
    cases hser : digitsOf (code ++ acct.take 9) with
    | none => rw [hser] at hvalid; simp at hvalid
    | some ds =>
      rw [hser] at hvalid
      have hlastd : charToDigit (acct.getD 9 ' ') = some (ads.getD 9 0) :=
        digitsOf_getD ha (by omega)
      rw [hlastd] at hvalid
      have hval2 : (10 - nubanSumFrom 0 ds % 10) % 10 = ads.getD 9 0 := by
        simpa using hvalid
      -- split the serial digits into code digits and account digits
      obtain ⟨cds, bs, hcds, hbs, hds⟩ := digitsOf_append_split hser
      have h9 : digitsOf (acct.take 9) = some (ads.take 9) := digitsOf_take 9 ha
      have hbs2 : bs = ads.take 9 := by
        rw [h9] at hbs; exact (Option.some.inj hbs).symm
      subst hbs2; subst hds
      have hadslen : ads.length = 10 := by rw [digitsOf_length ha, h10]
      have hdj : ads.getD j 0 < 10 := charToDigit_lt (digitsOf_getD ha (by omega))
      have hd10 : d' < 10 := charToDigit_lt hc'
      by_cases hj9 : j = 9
      · -- the check digit itself is changed: same sum, different comparand
        subst hj9
        have hts : (acct.set 9 c').take 9 = acct.take 9 := take_set_ge c' (by omega)
        have hlast' : (acct.set 9 c').getD 9 ' ' = c' := getD_set_self c' ' ' (by omega)
        simp only [validateNUBAN, List.length_set, h10, hts, hser, hlast', hc']
        rw [if_neg (by omega)]
        simp only [beq_eq_false_iff_ne, ne_eq]
        omega
      · -- a digit of the weighted serial is changed
        have hjlt : j < 9 := by omega
        have hts : (acct.set j c').take 9 = (acct.take 9).set j c' := take_set_lt c' hjlt
        have hset : digitsOf ((acct.take 9).set j c') = some ((ads.take 9).set j d') :=
          digitsOf_set h9 hc'
        have hser' : digitsOf (code ++ (acct.take 9).set j c')
            = some (cds ++ (ads.take 9).set j d') := digitsOf_append hcds hset
        have hlast' : (acct.set j c').getD 9 ' ' = acct.getD 9 ' ' :=
          getD_set_ne c' ' ' (by omega)
        have hlen9 : j < (ads.take 9).length := by
          simp [List.length_take]; omega
        have hsum := nubanSumFrom_set cds.length d' hlen9
        have hgd : (ads.take 9).getD j 0 = ads.getD j 0 := getD_take_lt 0 hjlt
        rw [hgd] at hsum
        have hS : nubanSumFrom 0 (cds ++ ads.take 9)
            = nubanSumFrom 0 cds + nubanSumFrom cds.length (ads.take 9) := by
          simpa using nubanSumFrom_append 0 cds (ads.take 9)
        have hS' : nubanSumFrom 0 (cds ++ (ads.take 9).set j d')
            = nubanSumFrom 0 cds + nubanSumFrom cds.length ((ads.take 9).set j d') := by
          simpa using nubanSumFrom_append 0 cds ((ads.take 9).set j d')
        have hWc := nubanWeight_cases (cds.length + j)
        have hrel : nubanSumFrom 0 (cds ++ (ads.take 9).set j d')
              + nubanWeight (cds.length + j) * ads.getD j 0
            = nubanSumFrom 0 (cds ++ ads.take 9)
              + nubanWeight (cds.length + j) * d' := by
          rcases hWc with hW | hW <;> rw [hW] at hsum ⊢ <;> omega
        have hshift := checkDigit_shift hWc hdj hd10 hne hrel
        rw [hval2] at hshift
        simp only [validateNUBAN, List.length_set, h10, hts, hser', hlast', hlastd]
        rw [if_neg (by omega)]
        simpa [beq_eq_false_iff_ne] using hshift

/-- Witness for C5 at account number 0000000001 and code 058: the pair
passes the checksum, the matching catalog entry is detected, and changing
the first digit to 5 breaks the checksum. -/
theorem nuban_detect_includes_witness :
    ((⟨"GTBank", "058".toList⟩ : Bank)
        ∈ detectPossibleBanks "0000000001".toList [⟨"GTBank", "058".toList⟩])
    ∧ validateNUBAN ("0000000001".toList.set 0 '5') "058".toList = false := by
  have h := nuban_detect_includes_and_mutation_invalidates
    "0000000001".toList "058".toList [0, 0, 0, 0, 0, 0, 0, 0, 0, 1]
    (by decide) (by decide) (by decide)
  exact ⟨h.1 [⟨"GTBank", "058".toList⟩] _ (by simp) rfl,
    h.2 0 (by decide) '5' 5 (by decide) (by decide)⟩

/-! ### Lemmas about the ledger executor -/

theorem resolveCreditTarget_transactions (rd : RecipientData) (amount : Rat)
    (ra? : Option Account) (rc? : Option Customer) (db1 : DB) :
    (resolveCreditTarget rd amount ra? rc? db1).2.2.2.2.transactions
      = db1.transactions := by
  simp only [resolveCreditTarget]
  repeat' split
  all_goals rfl

theorem resolveCreditTarget_none_zero (rd : RecipientData) (amount : Rat)
    (rc? : Option Customer) (db1 : DB) :
    (resolveCreditTarget rd amount none rc? db1).1 = 0
      ∧ (resolveCreditTarget rd amount none rc? db1).2.1 = 0 := by
  simp only [resolveCreditTarget]
  repeat' split
  all_goals simp

/-- C1 (amended): every successful `initiateTransfer` appends exactly one
debit row and one credit row of equal amounts, and the debit row's
`balanceBefore - balanceAfter` equals the amount.  The credit row's
`balanceAfter - balanceBefore` equals that difference when the recipient's
account number matches an existing (non-deleted) account; when it does not
(known customer without an account row, or external recipient) the credit
row records `balanceBefore = balanceAfter = 0`. -/
theorem initiateTransfer_double_entry
    (customerId accountId : Nat) (rd : RecipientData) (amount : Rat)
    (r1 r2 : String) (db : DB) (txn : TransactionRow) (db' : DB)
    (h : initiateTransfer customerId accountId rd amount r1 r2 db = .ok (txn, db')) :
    ∃ credit : TransactionRow,
      db'.transactions = db.transactions ++ [txn, credit]
      ∧ txn.transactionType = "debit"
      ∧ credit.transactionType = "credit"
      ∧ credit.amount = txn.amount
      ∧ txn.amount = amount
      ∧ txn.balanceBefore - txn.balanceAfter = amount
      ∧ ((∃ ra, db.accounts.find? (fun a =>
              a.accountNumber == rd.accountNumber && a.deletedAt.isNone) = some ra
            ∧ credit.balanceAfter - credit.balanceBefore
                = txn.balanceBefore - txn.balanceAfter)
        ∨ (db.accounts.find? (fun a =>
              a.accountNumber == rd.accountNumber && a.deletedAt.isNone) = none
            ∧ credit.balanceBefore = 0 ∧ credit.balanceAfter = 0)) := by
  simp only [initiateTransfer] at h
  split at h
  · simp at h
  rename_i customer hcf
  split at h
  · simp at h
  rename_i account haf
  split at h
  · simp at h
  rename_i hbal
  split at h
  · simp at h
  rename_i hrdata
  split at h
  case _ hbid =>
    -- no saved beneficiary to update
    rw [Except.ok.injEq, Prod.mk.injEq] at h
    obtain ⟨htxn, hdb⟩ := h
    subst htxn
    subst hdb
    refine ⟨mkCreditRow customer account amount r2
        (resolveCreditTarget rd amount
          (db.accounts.find? (fun a =>
            a.accountNumber == rd.accountNumber && a.deletedAt.isNone))
          (db.customers.find? (fun c =>
            c.accountNumber == rd.accountNumber && c.deletedAt.isNone))
          (applyDebit db accountId
            (mkDebitRow customerId accountId rd amount account.balance r1)
            (account.balance - amount))),
      ?_, rfl, rfl, rfl, rfl, ?_, ?_⟩
    · show (resolveCreditTarget _ _ _ _ _).2.2.2.2.transactions ++ [_]
        = db.transactions ++ [_, _]
      rw [resolveCreditTarget_transactions]
      show (db.transactions ++ [_]) ++ [_] = _
      rw [List.append_assoc]
      rfl
    · show account.balance - (account.balance - amount) = amount
      ring
    · cases hra : db.accounts.find? (fun a =>
          a.accountNumber == rd.accountNumber && a.deletedAt.isNone) with
      | some ra =>
        refine Or.inl ⟨ra, rfl, ?_⟩
        simp only [resolveCreditTarget]
        show ra.balance + amount - ra.balance = account.balance - (account.balance - amount)
        ring
      | none =>
        refine Or.inr ⟨rfl, ?_, ?_⟩
        · exact (resolveCreditTarget_none_zero _ _ _ _).1
        · exact (resolveCreditTarget_none_zero _ _ _ _).2
  case _ bid hbid =>
    -- saved beneficiary: its usage counter is updated inside the same unit
    split at h
    case isTrue hany =>
      rw [Except.ok.injEq, Prod.mk.injEq] at h
      obtain ⟨htxn, hdb⟩ := h
      subst htxn
      subst hdb
      refine ⟨mkCreditRow customer account amount r2
          (resolveCreditTarget rd amount
            (db.accounts.find? (fun a =>
              a.accountNumber == rd.accountNumber && a.deletedAt.isNone))
            (db.customers.find? (fun c =>
              c.accountNumber == rd.accountNumber && c.deletedAt.isNone))
            (applyDebit db accountId
              (mkDebitRow customerId accountId rd amount account.balance r1)
              (account.balance - amount))),
        ?_, rfl, rfl, rfl, rfl, ?_, ?_⟩
      · show (resolveCreditTarget _ _ _ _ _).2.2.2.2.transactions ++ [_]
          = db.transactions ++ [_, _]
        rw [resolveCreditTarget_transactions]
        show (db.transactions ++ [_]) ++ [_] = _
        rw [List.append_assoc]
        rfl
      · show account.balance - (account.balance - amount) = amount
        ring
      · cases hra : db.accounts.find? (fun a =>
            a.accountNumber == rd.accountNumber && a.deletedAt.isNone) with
        | some ra =>
          refine Or.inl ⟨ra, rfl, ?_⟩
          simp only [resolveCreditTarget]
          show ra.balance + amount - ra.balance = account.balance - (account.balance - amount)
          ring
        | none =>
          refine Or.inr ⟨rfl, ?_, ?_⟩
          · exact (resolveCreditTarget_none_zero _ _ _ _).1
          · exact (resolveCreditTarget_none_zero _ _ _ _).2
    case isFalse => simp at h

/-- Witness for the amended C1 theorem: a concrete transfer to an existing
account satisfies its hypothesis, and the double-entry conclusion holds. -/
theorem initiateTransfer_double_entry_witness :
    initiateTransfer 1 1 rdBob 100 "R1" "R2" dbWithBob = .ok (c1WitTxn, c1WitDb)
    ∧ ∃ credit : TransactionRow,
      c1WitDb.transactions = dbWithBob.transactions ++ [c1WitTxn, credit]
      ∧ c1WitTxn.transactionType = "debit"
      ∧ credit.transactionType = "credit"
      ∧ credit.amount = c1WitTxn.amount
      ∧ c1WitTxn.amount = 100
      ∧ c1WitTxn.balanceBefore - c1WitTxn.balanceAfter = 100
      ∧ ((∃ ra, dbWithBob.accounts.find? (fun a =>
              a.accountNumber == rdBob.accountNumber && a.deletedAt.isNone) = some ra
            ∧ credit.balanceAfter - credit.balanceBefore
                = c1WitTxn.balanceBefore - c1WitTxn.balanceAfter)
        ∨ (dbWithBob.accounts.find? (fun a =>
              a.accountNumber == rdBob.accountNumber && a.deletedAt.isNone) = none
            ∧ credit.balanceBefore = 0 ∧ credit.balanceAfter = 0)) :=
  ⟨by rfl,
    initiateTransfer_double_entry 1 1 rdBob 100 "R1" "R2" dbWithBob c1WitTxn c1WitDb
      (by rfl)⟩

/-- Counterexample to C1 as stated: for an external recipient the credit
row is persisted with `balanceBefore = balanceAfter = 0`, so its
`balanceAfter - balanceBefore` is 0, not the debit row's
`balanceBefore - balanceAfter` of 100. -/
theorem initiateTransfer_credit_delta_counterexample :
    ((initiateTransfer 1 1 rdExternal 100 "R1" "R2" dbNoBob).toOption.map (fun p =>
      (p.1.transactionType, p.1.balanceBefore - p.1.balanceAfter,
        p.2.transactions.getLast?.map (fun cr =>
          (cr.transactionType, cr.amount, cr.balanceAfter - cr.balanceBefore)))))
      = some ("debit", 100, some ("credit", 100, 0))
    ∧ ¬((0 : Rat) = 100) := by
  constructor
  · with_unfolding_all rfl
  · decide

/-! ### Lemmas about the store, and claims C2, C3, C7 -/

theorem getPending_eq_none_iff (tid : String) (st : Store) :
    getPendingTransaction tid st = none ↔ ∀ p ∈ st, p.1 ≠ tid := by
  simp [getPendingTransaction, List.find?_eq_none]

theorem getPending_delete (tid : String) (st : Store) :
    getPendingTransaction tid (deletePendingTransaction tid st) = none := by
  rw [getPending_eq_none_iff]
  intro p hp
  rw [deletePendingTransaction, List.mem_filter] at hp
  simpa using hp.2

theorem getPending_filter_none {tid : String} {st : Store} (f : String × PendingTxn → Bool)
    (h : getPendingTransaction tid st = none) :
    getPendingTransaction tid (st.filter f) = none := by
  rw [getPending_eq_none_iff] at h ⊢
  intro p hp
  exact h p (List.mem_of_mem_filter hp)

/-- C7: an entry is unreachable once its 15-minute timer has fired (more
than `TTLms` after creation); a get on an id the store does not hold is
NotFound, before and after any eviction; and a pending transaction whose
PIN confirmation executed successfully (HTTP 200) is deleted immediately
and never resurrected by eviction. -/
theorem pending_ttl_and_no_resurrection :
    (∀ (st : Store) (tid : String) (pt : PendingTxn) (now : Nat),
        (st.map Prod.fst).Nodup →
        getPendingTransaction tid st = some pt →
        pt.createdAt + TTLms < now →
        getPendingTransaction tid (expireDue now st) = none)
    ∧ (∀ (st : Store) (tid : String) (now : Nat),
        (∀ p ∈ st, p.1 ≠ tid) →
        getPendingTransaction tid st = none
          ∧ getPendingTransaction tid (expireDue now st) = none)
    ∧ (∀ (cid : Nat) (tid pin r1 r2 : String) (env : VerifyEnv)
        (st : Store) (db : DB) (resp : ApiResponse) (st' : Store) (db' : DB),
        verifyTransaction cid tid pin env r1 r2 st db = (resp, st', db') →
        resp.status = 200 →
        getPendingTransaction tid st' = none
          ∧ ∀ now, getPendingTransaction tid (expireDue now st') = none) := by
  refine ⟨?_, ?_, ?_⟩
  · intro st tid pt now hnodup hget htime
    rw [getPendingTransaction] at hget
    cases hf : st.find? (fun p => p.1 == tid) with
    | none => rw [hf] at hget; simp at hget
    | some e =>
      rw [hf] at hget
      simp only [Option.map_some'] at hget
      have hemem : e ∈ st := List.mem_of_find?_eq_some hf
      have hekey : e.1 = tid := by simpa using List.find?_some hf
      rw [getPending_eq_none_iff]
      intro p hp hpkey
      rw [expireDue, List.mem_filter] at hp
      have hpe : p = e :=
        List.inj_on_of_nodup_map hnodup hp.1 hemem (by rw [hpkey, hekey])
      have he2 : e.2 = pt := Option.some.inj hget
      have : now < pt.createdAt + TTLms := by
        have := hp.2
        rw [hpe, he2] at this
        simpa using this
      omega
  · intro st tid now h
    exact ⟨(getPending_eq_none_iff tid st).mpr h,
      getPending_filter_none _ ((getPending_eq_none_iff tid st).mpr h)⟩
  · intro cid tid pin r1 r2 env st db resp st' db' heq h200
    simp only [verifyTransaction] at heq
    split at heq
    · cases heq; simp at h200
    split at heq
    · cases heq; simp at h200
    split at heq
    · cases heq; simp at h200
    split at heq
    · cases heq; simp at h200
    split at heq
    · cases heq; simp at h200
    · -- successful execution: the entry is deleted
      cases heq
      refine ⟨getPending_delete tid st, fun now => ?_⟩
      exact getPending_filter_none _ (getPending_delete tid st)
    · split at heq
      · cases heq; simp at h200
      · cases heq; simp at h200

/-- Witness for C7 at a concrete store: a 16-minute-old entry is gone, an
unknown id is NotFound, and a successfully executed transfer's entry is
unreachable right after execution. -/
theorem pending_ttl_witness :
    getPendingTransaction "T1"
        (expireDue (16 * 60 * 1000)
          [("T1", { c7Pt with createdAt := 0 })]) = none
    ∧ getPendingTransaction "TX" ([("T1", c7Pt)] : Store) = none
    ∧ getPendingTransaction "T1" (verifyTransaction 1 "T1" "1234" c7Env "R1" "R2"
        [("T1", c7Pt)] dbWithBob).2.1 = none := by
  refine ⟨?_, ?_, ?_⟩
  · exact (pending_ttl_and_no_resurrection.1 _ "T1" { c7Pt with createdAt := 0 }
      (16 * 60 * 1000) (by decide) (by rfl) (by decide))
  · exact ((pending_ttl_and_no_resurrection.2.1 [("T1", c7Pt)] "TX" 0 (by decide)).1)
  · exact (pending_ttl_and_no_resurrection.2.2 1 "T1" "1234" "R1" "R2" c7Env
      [("T1", c7Pt)] dbWithBob _ _ _ rfl (by rfl)).1

/-- C3: when the pending transaction exists but belongs to another
customer, PIN confirmation replies 403 Unauthorized and leaves both the
store and the database exactly as they were — nothing is executed,
deleted, or mutated. -/
theorem verifyTransaction_unauthorized_untouched
    (cid : Nat) (tid pin r1 r2 : String) (env : VerifyEnv)
    (st : Store) (db : DB) (pt : PendingTxn)
    (hpt : getPendingTransaction tid st = some pt)
    (hown : pt.customerId ≠ cid) :
    verifyTransaction cid tid pin env r1 r2 st db
      = ({ status := 403, success := false, response := none
           error := some "Unauthorized"
           message := some "This transaction does not belong to you." },
          st, db) := by
  simp only [verifyTransaction, hpt]
  rw [if_pos hown]

/-- Witness for C3 at a concrete store: customer 2 cannot confirm
customer 1's pending transfer, and the state is untouched. -/
theorem verifyTransaction_unauthorized_witness :
    getPendingTransaction "T1" ([("T1", c7Pt)] : Store) = some c7Pt
    ∧ c7Pt.customerId ≠ 2
    ∧ verifyTransaction 2 "T1" "1234" c7Env "R1" "R2" [("T1", c7Pt)] dbWithBob
      = ({ status := 403, success := false, response := none
           error := some "Unauthorized"
           message := some "This transaction does not belong to you." },
          [("T1", c7Pt)], dbWithBob) :=
  ⟨rfl, by decide,
    verifyTransaction_unauthorized_untouched 2 "T1" "1234" "R1" "R2" c7Env
      [("T1", c7Pt)] dbWithBob c7Pt rfl (by decide)⟩

/-- C2 (amended): a PIN submission whose comparison against the stored
hash fails replies 401 and leaves the store and database unchanged — the
pending transaction is NOT discarded, so it stays retrievable and the
flow may be retried until the TTL evicts it. -/
theorem verifyTransaction_wrong_pin_preserves
    (cid : Nat) (tid pin r1 r2 : String) (env : VerifyEnv)
    (st : Store) (db : DB) (pt : PendingTxn) (hashedPIN : String)
    (hpt : getPendingTransaction tid st = some pt)
    (hown : pt.customerId = cid)
    (hhash : getCustomerPINHash cid db = some hashedPIN)
    (hcmp : env.bcryptCompare pin.trim hashedPIN = false) :
    verifyTransaction cid tid pin env r1 r2 st db
      = ({ status := 401, success := false
           response := some "Invalid PIN. Please try again."
           error := none, message := none }, st, db)
    ∧ getPendingTransaction tid st = some pt := by
  refine ⟨?_, hpt⟩
  simp [verifyTransaction, hpt, hhash, hcmp, hown]

/-- Witness for the amended C2 theorem at a concrete store. -/
theorem verifyTransaction_wrong_pin_witness :
    verifyTransaction 1 "T1" "9999" ⟨fun _ _ => false, .error "x"⟩ "R1" "R2"
        [("T1", c7Pt)] dbWithBob
      = ({ status := 401, success := false
           response := some "Invalid PIN. Please try again."
           error := none, message := none }, [("T1", c7Pt)], dbWithBob)
    ∧ getPendingTransaction "T1" ([("T1", c7Pt)] : Store) = some c7Pt :=
  verifyTransaction_wrong_pin_preserves 1 "T1" "9999" "R1" "R2"
    ⟨fun _ _ => false, .error "x"⟩ [("T1", c7Pt)] dbWithBob c7Pt "HASH"
    rfl rfl rfl rfl

/-- Counterexample to C2 as stated: after a failed PIN comparison the
pending transaction is still in the store (the route returns 401 without
deleting it), and a second attempt on the same id replies 401 again — not
404 NotFound. -/
theorem verifyTransaction_wrong_pin_counterexample :
    (verifyTransaction 1 "T1" "9999" ⟨fun _ _ => false, .error "x"⟩ "R1" "R2"
        [("T1", c7Pt)] dbWithBob).1.status = 401
    ∧ (verifyTransaction 1 "T1" "9999" ⟨fun _ _ => false, .error "x"⟩ "R1" "R2"
        [("T1", c7Pt)] dbWithBob).2.1 = [("T1", c7Pt)]
    ∧ getPendingTransaction "T1"
        ((verifyTransaction 1 "T1" "9999" ⟨fun _ _ => false, .error "x"⟩ "R1" "R2"
          [("T1", c7Pt)] dbWithBob).2.1) = some c7Pt
    ∧ (verifyTransaction 1 "T1" "9999" ⟨fun _ _ => false, .error "x"⟩ "R1" "R2"
        ((verifyTransaction 1 "T1" "9999" ⟨fun _ _ => false, .error "x"⟩ "R1" "R2"
          [("T1", c7Pt)] dbWithBob).2.1) dbWithBob).1.status ≠ 404 :=
  ⟨rfl, rfl, rfl, by decide⟩

theorem beq_comm_keys (a b : List Char) : (a == b) = (b == a) := by
  cases h : b == a
  · rw [beq_eq_false_iff_ne] at h
    rw [beq_eq_false_iff_ne]
    exact fun hab => h hab.symm
  · rw [beq_iff_eq] at h
    subst h
    simp

theorem dedupPass_eq_dedupByKey (l : List (List Char × Cand)) (seen : List (List Char)) :
    dedupPass seen l = dedupByKey (l.filter (fun p => !seen.contains p.1)) := by
  induction l generalizing seen with
  | nil => simp [dedupPass, dedupByKey]
  | cons kc rest ih =>
    obtain ⟨k, c⟩ := kc
    cases hk : seen.contains k with
    | true =>
      have hmem : k ∈ seen := by simpa using hk
      rw [dedupPass, if_pos hk, ih seen, List.filter_cons]
      simp [hmem]
    | false =>
      have hmem : ¬ k ∈ seen := by simpa using hk
      rw [dedupPass, if_neg (by simpa using hk), ih (k :: seen), List.filter_cons]
      rw [if_pos (by simpa using hk)]
      rw [dedupByKey, List.filter_filter]
      have hfeq : List.filter (fun p => !(k :: seen).contains p.1) rest
          = List.filter (fun a => a.1 != k && !seen.contains a.1) rest := by
        apply List.filter_congr
        intro p _
        show (!(k :: seen).contains p.1) = (p.1 != k && !seen.contains p.1)
        simp only [List.contains_cons, Bool.not_or, bne, beq_comm_keys k p.1]
      rw [hfeq]

/-- C9 (amended): `searchBeneficiaries` equals the first-occurrence-wins
deduplication (by the key `accountNumber-bankName`) of the three sources
concatenated in priority order — saved beneficiaries, then customers,
then past transaction counterparties; only the transaction-history fetch
is limited (to 50 rows, before deduplication) — the total result count is
not capped. -/
theorem searchBeneficiaries_dedup_priority_and_fetch_cap
    (bens : List BenRow) (custs : List CustRow) (txns : List TxnHistRow) :
    searchBeneficiaries bens custs txns
      = dedupByKey (searchKeyedInput bens custs txns) := by
  rw [searchBeneficiaries, dedupPass_eq_dedupByKey]
  congr 1
  have h : ∀ p ∈ searchKeyedInput bens custs txns,
      (!(([] : List (List Char)).contains p.1)) = (fun _ => true) p := by
    intro p _
    rfl
  rw [List.filter_congr h, List.filter_true]

/-- Counterexample to C9's cap as stated: with 51 distinct matching saved
beneficiaries the search returns 51 candidates, exceeding the claimed
bound of 50 — no cap is applied to the total result count. -/
theorem searchBeneficiaries_total_cap_counterexample :
    (searchBeneficiaries c9Bens [] []).length = 51 ∧ ¬(51 ≤ 50) :=
  ⟨by rfl, by decide⟩

/-- C6: in recipient resolution by name (single funded source account,
no account number in the message), zero candidates yield the terminal
user-not-found reply with no pending transaction retained; exactly one
candidate creates a pending transaction directly in `pending_pin` bound
to that candidate; several candidates create a pending transaction in
`beneficiary_selection` retaining the full candidate list. -/
theorem processTransferRequest_name_resolution
    (msg : List Char) (cid : Nat) (env : TransferEnv) (newId : String) (now : Nat)
    (st : Store) (a : Rat) (nm : String) (acct : AccountInfo)
    (hamt : (extractAmount msg).getD 0 = a) (ha0 : a ≠ 0)
    (hnum : extractTenDigit msg = none)
    (hname : extractRecipientName msg = some nm)
    (haccts : env.accountsOf cid = [acct])
    (hbal : ¬ acct.balance < a) :
    (env.search cid nm = [] →
      processTransferRequest msg cid env newId now st
        = ({ response := .userNotFound nm, transactionId := none, action := none }, st))
    ∧ (∀ b, env.search cid nm = [b] →
      ∃ pt, processTransferRequest msg cid env newId now st
          = ({ response := .foundSingle b.name b.last4Digits a,
               transactionId := some newId, action := some "verify_pin" },
             st ++ [(newId, pt)])
        ∧ pt.status = "pending_pin" ∧ pt.beneficiary = some b ∧ pt.amount = a
        ∧ pt.customerId = cid ∧ pt.accountId = some acct.id ∧ pt.id = newId)
    ∧ (∀ b1 b2 bs, env.search cid nm = b1 :: b2 :: bs →
      ∃ pt, processTransferRequest msg cid env newId now st
          = ({ response := .selectBeneficiary (b1 :: b2 :: bs).length nm
                 ((b1 :: b2 :: bs).map (·.last4Digits)),
               transactionId := some newId, action := some "select_beneficiary" },
             st ++ [(newId, pt)])
        ∧ pt.status = "beneficiary_selection" ∧ pt.beneficiaries = some (b1 :: b2 :: bs)
        ∧ pt.amount = a ∧ pt.customerId = cid ∧ pt.id = newId) := by
  refine ⟨?_, ?_, ?_⟩
  · intro hs
    simp only [processTransferRequest, hamt, hnum, hname, haccts, hs]
    simp [ha0, hbal, hs, List.getD]
  · intro b hs
    refine ⟨{ basePending with
              beneficiary := some b, amount := a, accountId := some acct.id
              status := "pending_pin", id := newId, type := "transfer"
              customerId := cid, createdAt := now },
            ?_, rfl, rfl, rfl, rfl, rfl, rfl⟩
    simp only [processTransferRequest, createPendingTransaction, hamt, hnum, hname,
      haccts, hs]
    simp [ha0, hbal, hs, List.getD]
  · intro b1 b2 bs hs
    refine ⟨{ basePending with
              beneficiaries := some (b1 :: b2 :: bs), amount := a
              accountId := some acct.id, recipientName := some nm
              status := "beneficiary_selection", id := newId, type := "transfer"
              customerId := cid, createdAt := now },
            ?_, rfl, rfl, rfl, rfl, rfl⟩
    simp only [processTransferRequest, createPendingTransaction, hamt, hnum, hname,
      haccts, hs]
    simp [ha0, hbal, hs, List.getD]

/-- C6 witness: "Send 100 to John Doe", one funded account, one search
candidate — the pending transaction is created directly in
`pending_pin` bound to Bob. -/
theorem processTransferRequest_name_resolution_witness :
    ∃ pt, processTransferRequest "Send 100 to John Doe".toList 1 c6Env "N1" 0 []
        = ({ response := .foundSingle bobCand.name bobCand.last4Digits 100,
             transactionId := some "N1", action := some "verify_pin" },
           [] ++ [("N1", pt)])
      ∧ pt.status = "pending_pin" ∧ pt.beneficiary = some bobCand ∧ pt.amount = 100
      ∧ pt.customerId = 1 ∧ pt.accountId = some aliceInfo.id ∧ pt.id = "N1" :=
  (processTransferRequest_name_resolution "Send 100 to John Doe".toList 1 c6Env
      "N1" 0 [] 100 "John Doe" aliceInfo (by decide) (by decide) (by decide)
      (by decide) (by decide) (by decide)).2.1 bobCand (by decide)

/-- C8 (amended): unrecognized or underfunded selection replies re-prompt
with the store — hence the stored candidate list and every other field —
unchanged; an accepted beneficiary selection advances the pending
transaction to `pending_pin` bound to exactly that candidate; an accepted
account selection binds the account, sets status `processing`, and hands
over to the name/account-number resolution, whose outcome (not
necessarily `pending_pin`) decides the next status. -/
theorem selection_reply_outcomes
    (msg : List Char) (pt : PendingTxn) (env : TransferEnv) (st : Store) :
    (extractBeneficiarySelection msg (pt.beneficiaries.getD []) = none →
      handleBeneficiarySelection msg pt st = (none, st))
    ∧ (∀ sel, extractBeneficiarySelection msg (pt.beneficiaries.getD []) = some sel →
      handleBeneficiarySelection msg pt st
        = (some { response := .selectedBeneficiary sel.name sel.last4Digits pt.amount,
                  transactionId := some pt.id, action := some "verify_pin" },
           storeSet pt.id { pt with beneficiary := some sel, status := "pending_pin", beneficiaries := none, recipientName := none } st))
    ∧ (∀ ending, firstFourDigitRun msg = some ending →
      (pt.accounts.getD []).find? (fun acc => lastN 4 acc.accountNumber == ending) = none →
      handleAccountSelection msg pt env st
        = (some { response := .notFoundEnding ending ((pt.accounts.getD []).map (fun acc => lastN 4 acc.accountNumber)),
                  transactionId := some pt.id, action := some "select_account" }, st))
    ∧ (∀ ending sel, firstFourDigitRun msg = some ending →
      (pt.accounts.getD []).find? (fun acc => lastN 4 acc.accountNumber == ending) = some sel →
      sel.balance < pt.amount →
      handleAccountSelection msg pt env st
        = (some { response := .insufficientSelected ending ((pt.accounts.getD []).map (fun acc => lastN 4 acc.accountNumber)),
                  transactionId := some pt.id, action := some "select_account" }, st))
    ∧ (∀ ending sel, firstFourDigitRun msg = some ending →
      (pt.accounts.getD []).find? (fun acc => lastN 4 acc.accountNumber == ending) = some sel →
      ¬ sel.balance < pt.amount →
      handleAccountSelection msg pt env st
        = (some (acceptSelectedAccount pt sel env st).1, (acceptSelectedAccount pt sel env st).2)
        ∧ (bindSelectedAccount pt sel).status = "processing") := by
  refine ⟨?_, ?_, ?_, ?_, ?_⟩
  · intro he
    simp only [handleBeneficiarySelection, he]
  · intro sel he
    simp only [handleBeneficiarySelection, he]
  · intro ending hf hfind
    simp only [handleAccountSelection, hf, hfind]
  · intro ending sel hf hfind hlt
    simp only [handleAccountSelection, hf, hfind]
    rw [if_pos hlt]
  · intro ending sel hf hfind hlt
    refine ⟨?_, rfl⟩
    simp only [handleAccountSelection, hf, hfind]
    rw [if_neg hlt]

/-- C8 witness: replying "2222" to the beneficiary selection between Bob
(ending 2222) and Jane (ending 4444) binds Bob and moves the pending
transaction to `pending_pin`. -/
theorem selection_reply_outcomes_witness :
    handleBeneficiarySelection "2222".toList c8bPt c8bSt
      = (some { response := .selectedBeneficiary bobCand.name bobCand.last4Digits c8bPt.amount,
                transactionId := some c8bPt.id, action := some "verify_pin" },
         storeSet c8bPt.id { c8bPt with beneficiary := some bobCand, status := "pending_pin", beneficiaries := none, recipientName := none } c8bSt) :=
  (selection_reply_outcomes "2222".toList c8bPt c8Env c8bSt).2.1 bobCand (by decide)

/-- C8 counterexample: customer 7's pending transfer in
`account_selection` (accounts ending 1111 and 2222, two search
candidates for the stored recipient name): the accepted reply "2222" ends
with the stored transaction in `beneficiary_selection`, not in
`pending_pin` as the claim states for every accepted selection. -/
theorem handleAccountSelection_accept_not_pending_pin :
    ((getPendingTransaction "T8" (handleAccountSelection "2222".toList c8Pt c8Env c10aSt).2).map (·.status)
        = some "beneficiary_selection")
    ∧ ("beneficiary_selection" : String) ≠ "pending_pin" :=
  ⟨by decide, by decide⟩

theorem map_fst_replace (tid : String) (pt : PendingTxn) (st : Store) :
    (st.map (fun p => if p.1 == tid then (tid, pt) else p)).map Prod.fst
      = st.map Prod.fst := by
  induction st with
  | nil => rfl
  | cons hd tl ih =>
    simp only [List.map_cons, ih]
    congr 1
    split
    · next h => exact (beq_iff_eq.mp h).symm
    · rfl

theorem map_fst_storeSet (tid : String) (pt : PendingTxn) (st : Store)
    (h : tid ∈ st.map Prod.fst) :
    (storeSet tid pt st).map Prod.fst = st.map Prod.fst := by
  have hany : st.any (fun p => p.1 == tid) = true := by
    rcases List.mem_map.mp h with ⟨p, hp, he⟩
    exact List.any_eq_true.mpr ⟨p, hp, by simp [he]⟩
  unfold storeSet
  rw [if_pos hany]
  exact map_fst_replace tid pt st

theorem continueTransfer_map_fst (pt : PendingTxn) (env : TransferEnv) (st : Store)
    (h : pt.id ∈ st.map Prod.fst) :
    ((continueTransferAfterAccountSelection pt env st).2).map Prod.fst
      = st.map Prod.fst := by
  cases hn : pt.accountNumber with
  | some acctNum =>
    cases hv : env.verify acctNum with
    | ok d =>
      simp only [continueTransferAfterAccountSelection, hn, hv]
      exact map_fst_storeSet pt.id _ st h
    | error e => simp only [continueTransferAfterAccountSelection, hn, hv]
  | none =>
    cases hs : env.search pt.customerId (pt.recipientName.getD "") with
    | nil => simp only [continueTransferAfterAccountSelection, hn, hs]
    | cons b bs =>
      cases bs with
      | nil =>
        simp only [continueTransferAfterAccountSelection, hn, hs]
        exact map_fst_storeSet pt.id _ st h
      | cons b2 bs2 =>
        simp only [continueTransferAfterAccountSelection, hn, hs]
        exact map_fst_storeSet pt.id _ st h

theorem acceptSelected_map_fst (pt : PendingTxn) (sel : AccountInfo)
    (env : TransferEnv) (st : Store) (h : pt.id ∈ st.map Prod.fst) :
    ((acceptSelectedAccount pt sel env st).2).map Prod.fst = st.map Prod.fst := by
  have hset := map_fst_storeSet pt.id (bindSelectedAccount pt sel) st h
  have hmem : (bindSelectedAccount pt sel).id
      ∈ (storeSet pt.id (bindSelectedAccount pt sel) st).map Prod.fst := by
    rw [hset]; exact h
  exact (continueTransfer_map_fst (bindSelectedAccount pt sel) env
    (storeSet pt.id (bindSelectedAccount pt sel) st) hmem).trans hset

theorem handleAccount_map_fst (msg : List Char) (pt : PendingTxn)
    (env : TransferEnv) (st : Store) (h : pt.id ∈ st.map Prod.fst) :
    ((handleAccountSelection msg pt env st).2).map Prod.fst = st.map Prod.fst := by
  cases hf : firstFourDigitRun msg with
  | none =>
    cases hm : matchNumberOrWord selectionWords (trimChars (lowerChars msg)) with
    | none => simp only [handleAccountSelection, hf, hm]
    | some g =>
      simp only [handleAccountSelection, hf, hm]
      repeat' split
      all_goals first
        | rfl
        | exact acceptSelected_map_fst pt _ env st h
  | some ending =>
    cases hfind : (pt.accounts.getD []).find? (fun acc => lastN 4 acc.accountNumber == ending) with
    | none => simp only [handleAccountSelection, hf, hfind]
    | some sel =>
      simp only [handleAccountSelection, hf, hfind]
      split
      all_goals first
        | rfl
        | exact acceptSelected_map_fst pt sel env st h

theorem handleBeneficiary_map_fst (msg : List Char) (pt : PendingTxn) (st : Store)
    (h : pt.id ∈ st.map Prod.fst) :
    ((handleBeneficiarySelection msg pt st).2).map Prod.fst = st.map Prod.fst := by
  unfold handleBeneficiarySelection
  cases he : extractBeneficiarySelection msg (pt.beneficiaries.getD []) with
  | none => rfl
  | some sel => exact map_fst_storeSet pt.id _ st h

/-- C10 (amended): when a pending transfer in `account_selection` or
`beneficiary_selection` exists for the customer and the new message
passes `isValidTransferMessage`, the route dispatches it to the matching
selection handler for that pending transaction; and — for every message —
the route never adds a store entry under a new id while the selection is
outstanding (no second pending transfer is created). -/
theorem transferRoute_selection_dispatch
    (msg : List Char) (cid : Nat) (env : TransferEnv) (newId : String) (now : Nat)
    (st : Store) (kp : String × PendingTxn)
    (hfind : st.find? (fun p => p.2.customerId == cid && p.2.type == "transfer"
        && (p.2.status == "beneficiary_selection" || p.2.status == "account_selection")) = some kp)
    (hkey : kp.2.id = kp.1)
    (hvalid : isValidTransferMessage (trimChars msg) = true) :
    (kp.2.status = "account_selection" →
      transferRoute msg cid env newId now st
        = ((handleAccountSelection (trimChars msg) kp.2 env st).1.getD notClearSelectionReply,
           (handleAccountSelection (trimChars msg) kp.2 env st).2))
    ∧ (kp.2.status = "beneficiary_selection" →
      transferRoute msg cid env newId now st
        = if isValidSelectionMessage (trimChars msg) kp.2 then
            ((handleBeneficiarySelection (trimChars msg) kp.2 st).1.getD notClearSelectionReply,
             (handleBeneficiarySelection (trimChars msg) kp.2 st).2)
          else (notClearSelectionReply, st))
    ∧ ((transferRoute msg cid env newId now st).2).map Prod.fst = st.map Prod.fst := by
  have h0 : ¬ (trimChars msg).length = 0 := by
    intro h0
    simp [isValidTransferMessage, h0] at hvalid
  have hmem : kp.2.id ∈ st.map Prod.fst := by
    rw [hkey]
    exact List.mem_map_of_mem Prod.fst (List.mem_of_find?_eq_some hfind)
  have hpred := List.find?_some hfind
  refine ⟨?_, ?_, ?_⟩
  · intro hstA
    simp only [transferRoute, h0, hvalid, hfind, if_false, Bool.not_true, hstA]
    rcases hha : handleAccountSelection (trimChars msg) kp.2 env st with ⟨o, st2⟩
    cases o <;> simp [hha, notClearSelectionReply]
  · intro hstB
    have hne : (("beneficiary_selection" : String) == "account_selection") = false := by decide
    simp only [transferRoute, h0, hvalid, hfind, if_false, Bool.not_true, hstB, hne]
    cases hsel : isValidSelectionMessage (trimChars msg) kp.2 with
    | false => simp [hsel, notClearSelectionReply]
    | true =>
      rcases hhb : handleBeneficiarySelection (trimChars msg) kp.2 st with ⟨o, st2⟩
      cases o <;> simp [hsel, hhb, notClearSelectionReply]
  · simp only [Bool.and_eq_true, Bool.or_eq_true, beq_iff_eq] at hpred
    rcases hpred with ⟨⟨-, -⟩, hstat | hstat⟩
    · have hne : (("beneficiary_selection" : String) == "account_selection") = false := by decide
      simp only [transferRoute, h0, hvalid, hfind, if_false, Bool.not_true, hstat, hne]
      cases hsel : isValidSelectionMessage (trimChars msg) kp.2 with
      | false => simp [hsel]
      | true =>
        rcases hhb : handleBeneficiarySelection (trimChars msg) kp.2 st with ⟨o, st2⟩
        have := handleBeneficiary_map_fst (trimChars msg) kp.2 st hmem
        rw [hhb] at this
        cases o <;> simp [hsel, hhb] <;> exact this
    · simp only [transferRoute, h0, hvalid, hfind, if_false, Bool.not_true, hstat]
      rcases hha : handleAccountSelection (trimChars msg) kp.2 env st with ⟨o, st2⟩
      have := handleAccount_map_fst (trimChars msg) kp.2 env st hmem
      rw [hha] at this
      cases o <;> simp [hha] <;> exact this

/-- C10 witness: with customer 3's beneficiary selection outstanding, the
valid message "Send 100 to John Doe" leaves the store's keys unchanged —
no second pending transfer is created. -/
theorem transferRoute_selection_dispatch_witness :
    ((transferRoute "Send 100 to John Doe".toList 3 c8Env "N2" 0 c8bSt).2).map Prod.fst
      = c8bSt.map Prod.fst :=
  (transferRoute_selection_dispatch "Send 100 to John Doe".toList 3 c8Env "N2" 0
      c8bSt ("TB", c8bPt) (by decide) (by decide) (by decide)).2.2

/-- C10 counterexample: customer 7 has the account-selection transfer
`T8` outstanding and replies "2222" — a reply naming the ending of one of
the offered accounts.  The route answers with the generic
invalid-transfer-message reply and leaves the store untouched instead of
handling the message as a selection reply (the selection handler itself
would have advanced the stored transaction, as the second conjunct
shows), because "2222" is shorter than `isValidTransferMessage`'s
five-character minimum. -/
theorem transferRoute_short_selection_counterexample :
    transferRoute "2222".toList 7 c8Env "N3" 0 c10aSt
      = ({ response := .notClearTransfer, transactionId := none, action := none }, c10aSt)
    ∧ (handleAccountSelection "2222".toList c8Pt c8Env c10aSt).2 ≠ c10aSt :=
  ⟨by decide, by decide⟩

end PersonalisedBank
